import Mathlib

/-!
rk-grpc: basic-auth server interceptor, client interceptor, call context

A shallow embedding of

* `interceptor/auth/basic_auth/server_interceptor.go`
  (`serverBefore`, `UnaryServerInterceptor`, `StreamServerInterceptor`),
* `interceptor/basic/client_interceptor.go`
  (`UnaryClientInterceptor`, `StreamClientInterceptor`),
* the accessors and setters of package `rkgrpcctx` that these files call,
* `boot/tv_entry.go` (`NewTvEntry`, its options and getters),

together with the Go standard-library functions they rely on
(`strings.HasPrefix`, `strings.IndexByte`, `base64.StdEncoding`,
`net.SplitHostPort`).

A Go `string` is an immutable sequence of bytes; it is embedded as a list of
natural numbers, each meant to be below 256.
-/

namespace RkGrpc

/-! ## Go strings -/

/-- A Go string: its bytes, in order. -/
abbrev GoString := List Nat

/-- Every element is a byte. -/
def IsBytes (s : GoString) : Prop := ∀ b ∈ s, b < 256

instance (s : GoString) : Decidable (IsBytes s) := by
  unfold IsBytes; infer_instance

/-- The bytes of a literal written in ASCII. -/
def str (s : String) : GoString := s.toList.map Char.toNat

/-- Go `strings.HasPrefix(s, pre)`: `len(s) >= len(pre) && s[:len(pre)] == pre`. -/
def HasPrefix (s pre : GoString) : Bool :=
  decide (pre.length ≤ s.length) && decide (s.take pre.length = pre)

/-- Go `strings.IndexByte(s, c)`: the index of the first `c` in `s`, or `-1`. -/
def IndexByte : GoString → Nat → Int
  | [], _ => -1
  | b :: rest, c =>
    if b = c then 0
    else if IndexByte rest c < 0 then -1 else IndexByte rest c + 1

/-- Go `strings.LastIndexByte(s, c)`: the index of the last `c` in `s`, or `-1`. -/
def LastIndexByte : GoString → Nat → Int
  | [], _ => -1
  | b :: rest, c =>
    if 0 ≤ LastIndexByte rest c then LastIndexByte rest c + 1
    else if b = c then 0 else -1

/-! ## `encoding/base64`, `StdEncoding` (padded, not strict) -/

/-- The alphabet of `StdEncoding`: the byte that encodes a six-bit value. -/
def encodeStd (v : Nat) : Nat :=
  if v < 26 then v + 65
  else if v < 52 then v + 71
  else if v < 62 then v - 4
  else if v = 62 then 43
  else 47

/-- The `decodeMap` of `StdEncoding`: the six-bit value of an alphabet byte,
`none` where the Go table holds `0xff`. -/
def decodeMap (c : Nat) : Option Nat :=
  if 65 ≤ c ∧ c ≤ 90 then some (c - 65)
  else if 97 ≤ c ∧ c ≤ 122 then some (c - 71)
  else if 48 ≤ c ∧ c ≤ 57 then some (c + 4)
  else if c = 43 then some 62
  else if c = 47 then some 63
  else none

/-- Go `base64.StdEncoding.EncodeToString`. -/
def EncodeToString : GoString → GoString
  | a :: b :: c :: rest =>
    encodeStd (a / 4) :: encodeStd (a % 4 * 16 + b / 16) ::
      encodeStd (b % 16 * 4 + c / 64) :: encodeStd (c % 64) :: EncodeToString rest
  | [a, b] => [encodeStd (a / 4), encodeStd (a % 4 * 16 + b / 16), encodeStd (b % 16 * 4), 61]
  | [a] => [encodeStd (a / 4), encodeStd (a % 4 * 16), 61, 61]
  | [] => []

/-- The loop `for si < len(src) && (src[si] == '\n' || src[si] == '\r')`. -/
def skipNewlines : GoString → GoString
  | [] => []
  | c :: rest => if c = 10 ∨ c = 13 then skipNewlines rest else c :: rest

/-- The tail of `decodeQuantum`: the `dlen - 1` bytes of a quantum of `dlen`
six-bit values, `val = d0<<18 | d1<<12 | d2<<6 | d3` cut into three bytes. -/
def quantumBytes (dbuf : List Nat) : GoString :=
  let val := dbuf.getD 0 0 * 262144 + dbuf.getD 1 0 * 4096 + dbuf.getD 2 0 * 64 + dbuf.getD 3 0
  [val / 65536 % 256, val / 256 % 256, val % 256].take (dbuf.length - 1)

/-- The loops of `Encoding.Decode` and `decodeQuantum` as one pass over the
source: `dbuf` holds the six-bit values read so far in the current quantum
(`j = dbuf.length`). `none` is any `CorruptInputError`. The 8-byte and 4-byte
fast paths of `Decode` yield what `decodeQuantum` yields on the same bytes and
fall back to it otherwise, so they have no case of their own. -/
def decodeFrom (dbuf : List Nat) : GoString → Option GoString
  | [] => if dbuf.length = 0 then some [] else none
  | c :: rest =>
    match decodeMap c with
    | some out =>
      if dbuf.length = 3 then
        (decodeFrom [] rest).map (fun tail => quantumBytes (dbuf ++ [out]) ++ tail)
      else decodeFrom (dbuf ++ [out]) rest
    | none =>
      if c = 10 ∨ c = 13 then decodeFrom dbuf rest
      else if c ≠ 61 then none
      else if dbuf.length < 2 then none
      else if dbuf.length = 2 then
        match skipNewlines rest with
        | [] => none
        | d :: rest2 =>
          if d ≠ 61 then none
          else if skipNewlines rest2 = [] then some (quantumBytes dbuf) else none
      else if skipNewlines rest = [] then some (quantumBytes dbuf) else none

/-- Go `base64.StdEncoding.DecodeString`: the decoded bytes, `none` on error. -/
def DecodeString (s : GoString) : Option GoString := decodeFrom [] s

/-! ## gRPC status errors and metadata -/

/-- The codes of `google.golang.org/grpc/codes`. -/
inductive Code where
  | OK | Canceled | Unknown | InvalidArgument | DeadlineExceeded | NotFound
  | AlreadyExists | PermissionDenied | ResourceExhausted | FailedPrecondition
  | Aborted | OutOfRange | Unimplemented | Internal | Unavailable | DataLoss
  | Unauthenticated
deriving DecidableEq, Repr

/-- A non-nil Go `error` made by `status.Error(code, msg)`. -/
structure Status where
  code : Code
  msg : String
deriving DecidableEq, Repr

/-- Go `metadata.MD`, a `map[string][]string`: the nil map, or a table. -/
inductive MD where
  | null : MD
  | pairs : List (GoString × List GoString) → MD
deriving DecidableEq, Repr

/-- Indexing `md[k]`: the values under `k`, empty when the key is absent or the
map is nil. -/
def MD.values : MD → GoString → List GoString
  | MD.null, _ => []
  | MD.pairs kvs, k => (kvs.lookup k).getD []

/-! ## The call context of package `rkgrpcctx` -/

/-- A logger handle (`*zap.Logger`). -/
structure Logger where
  id : Nat
deriving DecidableEq, Repr

/-- An event handle (`rkquery.Event`). -/
structure Event where
  id : Nat
deriving DecidableEq, Repr

/-- The struct `rkgrpcctx.RpcInfo`, as the interceptors fill it (`RpcType` is
the Go field `Type`). -/
structure RpcInfo where
  GrpcService : GoString
  GrpcMethod : GoString
  GwMethod : GoString
  GwPath : GoString
  GwScheme : GoString
  GwUserAgent : GoString
  RpcType : GoString
  RemoteIp : GoString
  RemotePort : GoString
  Err : Option Status
deriving DecidableEq, Repr

/-- Modelled from the spec: the struct `payload` of package `rkgrpcctx`, whose
declaration is not in the sources (spec section 3, Call Context Payload). A
`none` handle and `MD.null` stand for Go nil. -/
structure payload where
  event : Option Event
  logger : Option Logger
  entryName : GoString
  incomingMD : MD
  outgoingMD : MD
  rpcInfo : Option RpcInfo
deriving DecidableEq, Repr

/-- A non-nil `context.Context`, as far as the interceptors read it: the
incoming and outgoing metadata the transport attached (`none` when
`metadata.FromIncomingContext` resp. `FromOutgoingContext` answers `ok = false`)
and the payload attached under the package key. The payload is held by
reference in Go; a value of this type is that reference together with the
present contents of what it points to. -/
structure Ctx where
  incoming : Option MD
  outgoing : Option MD
  rk : Option payload
deriving DecidableEq, Repr

/-- A Go `context.Context`; `none` is the nil context. -/
abbrev Context := Option Ctx

/-- The plain context `context.TODO()`. -/
def Ctx.todo : Ctx := { incoming := none, outgoing := none, rk := none }

/-- Modelled from the spec: the no-op logger returned when none is set. -/
def NoopLogger : Logger := ⟨0⟩

/-- Modelled from the spec: the no-op event returned when none is set. -/
def NoopEvent : Event := ⟨0⟩

/-- Modelled from the spec: the name of the fallback entry
(`newFakeGRPCEntry().GetName()` in the tests); its text is not in the sources. -/
def fakeEntryName : GoString := str "fake"

/-- Modelled from the spec: `containsPayload` of package `rkgrpcctx`. -/
def containsPayload (ctx : Context) : Bool :=
  match ctx with
  | some c => c.rk.isSome
  | none => false

/-- Modelled from the spec: the default payload that `resolve` yields when none
is attached (spec section 4.1). -/
def defaultPayload : payload :=
  { event := some NoopEvent, logger := some NoopLogger, entryName := fakeEntryName,
    incomingMD := MD.pairs [], outgoingMD := MD.pairs [], rpcInfo := none }

/-- Modelled from the spec: `GetPayload` of package `rkgrpcctx`, the attached
payload or a fresh default one. The result is a pointer; `none` would be nil. -/
def GetPayload (ctx : Context) : Option payload :=
  match ctx with
  | some { rk := some p, .. } => some p
  | _ => some defaultPayload

/-- Modelled from the spec: `GetLogger` of package `rkgrpcctx`. -/
def GetLogger (ctx : Context) : Option Logger :=
  match ctx with
  | some { rk := some p, .. } => some (p.logger.getD NoopLogger)
  | _ => some NoopLogger

/-- Modelled from the spec: `GetEvent` of package `rkgrpcctx`. -/
def GetEvent (ctx : Context) : Option Event :=
  match ctx with
  | some { rk := some p, .. } => some (p.event.getD NoopEvent)
  | _ => some NoopEvent

/-- Modelled from the spec: `GetEntryName` of package `rkgrpcctx`. -/
def GetEntryName (ctx : Context) : GoString :=
  match ctx with
  | some { rk := some p, .. } => p.entryName
  | _ => fakeEntryName

/-- Normalising a nil map to `metadata.Pairs()`. -/
def MD.orEmpty : MD → MD
  | MD.null => MD.pairs []
  | md => md

/-- Modelled from the spec: `GetIncomingMD` of package `rkgrpcctx`: the cached
map of the payload, else the map the transport attached, else an empty map
(spec section 4.2 and `TestGetIncomingMD_WithoutRkContext`). -/
def GetIncomingMD (ctx : Context) : MD :=
  match ctx with
  | none => MD.pairs []
  | some { rk := some p, .. } => p.incomingMD.orEmpty
  | some { rk := none, incoming := some md, .. } => md.orEmpty
  | some { rk := none, incoming := none, .. } => MD.pairs []

/-- Modelled from the spec: `GetOutgoingMD` of package `rkgrpcctx`
(spec section 4.2 and `TestOutgoingMD_WithoutRkContext`). -/
def GetOutgoingMD (ctx : Context) : MD :=
  match ctx with
  | none => MD.pairs []
  | some { rk := some p, .. } => p.outgoingMD.orEmpty
  | some { rk := none, outgoing := some md, .. } => md.orEmpty
  | some { rk := none, outgoing := none, .. } => MD.pairs []

/-- Modelled from the spec: `GetValueFromIncomingMD` of package `rkgrpcctx`
(spec section 4.2, `lookupIncoming`): all values under the key in the cached
incoming metadata of the payload, an empty sequence when the context, the
payload or the map is absent. -/
def GetValueFromIncomingMD (ctx : Context) (key : GoString) : List GoString :=
  match ctx with
  | some { rk := some p, .. } => p.incomingMD.values key
  | _ => []

/-- Modelled from the spec: `GetValueFromOutgoingMD` of package `rkgrpcctx`, the
same lookup in the cached outgoing metadata. -/
def GetValueFromOutgoingMD (ctx : Context) (key : GoString) : List GoString :=
  match ctx with
  | some { rk := some p, .. } => p.outgoingMD.values key
  | _ => []

/-- Modelled from the spec: `GetRpcInfo` of package `rkgrpcctx`: the RpcInfo of
the attached payload, nil when there is none. -/
def GetRpcInfo (ctx : Context) : Option RpcInfo :=
  match ctx with
  | some { rk := some p, .. } => p.rpcInfo
  | _ => none

/-- The assignment `rpcInfo.Err = err` through the pointer `GetRpcInfo(ctx)`,
guarded by `rpcInfo != nil`: the context with the pointed-to RpcInfo updated. -/
def setRpcInfoErr (ctx : Context) (err : Option Status) : Context :=
  match ctx with
  | some c =>
    match c.rk with
    | some p =>
      match p.rpcInfo with
      | some info => some { c with rk := some { p with rpcInfo := some { info with Err := err } } }
      | none => some c
    | none => some c
  | none => none

/-! ## The basic-auth option set and `serverBefore` -/

/-- Modelled from the spec: the struct `optionSet` of package
`rkgrpcbasicauth`, whose declaration is not in the sources (spec section 3,
Option Set): the entry name, the call type and the credential table. -/
structure optionSet where
  EntryName : GoString
  EntryType : GoString
  credentials : List (GoString × GoString)
deriving DecidableEq, Repr

/-- Modelled from the spec: the method `Authorized` of `optionSet`: the pair is
an exact match in the credential table. -/
def optionSet.Authorized (set : optionSet) (username password : GoString) : Bool :=
  match set.credentials.lookup username with
  | some expected => decide (expected = password)
  | none => false

/-- The header key `"authorization"`. -/
def authorizationKey : GoString := str "authorization"

/-- The scheme literal `"Bearer "`. -/
def bearer : GoString := str "Bearer "

/-- The error `status.Error(codes.Unauthenticated, msg)`. -/
def unauthenticated (msg : String) : Status := { code := Code.Unauthenticated, msg := msg }

def errMissingHeader : Status := unauthenticated "Missing auth header"

def errMissingScheme : Status :=
  unauthenticated "Missing \"Basic \" prefix in \"Authorization\" header"

def errInvalidBase64 : Status := unauthenticated "Invalid base64 in header"

def errInvalidFormat : Status := unauthenticated "Invalid basic auth format"

def errInvalidCredentials : Status := unauthenticated "Invalid username or password"

/-- The function `serverBefore` of `server_interceptor.go`; `none` is the nil
error. -/
def serverBefore (ctx : Context) (set : optionSet) : Option Status :=
  let val := GetValueFromIncomingMD ctx authorizationKey
  match val with
  | [] => some errMissingHeader
  | credRaw :: _ =>
    if !HasPrefix credRaw bearer then some errMissingScheme
    else
      match DecodeString (credRaw.drop bearer.length) with
      | none => some errInvalidBase64
      | some credStr =>
        let index := IndexByte credStr 58
        if index < 0 then some errInvalidFormat
        else
          let username := credStr.take index.toNat
          let password := credStr.drop (index.toNat + 1)
          if !set.Authorized username password then some errInvalidCredentials
          else none

/-- The bytes before the first `c`. -/
def beforeFirst (s : GoString) (c : Nat) : GoString := s.takeWhile (fun b => decide (b ≠ c))

/-- The bytes after the first `c`. -/
def afterFirst (s : GoString) (c : Nat) : GoString :=
  (s.dropWhile (fun b => decide (b ≠ c))).tail

/-- The context of a server call whose payload caches incoming metadata with
exactly the given values under "authorization" (and no RpcInfo). -/
def authCtx (vals : List GoString) : Context :=
  some { incoming := none, outgoing := none,
         rk := some { defaultPayload with incomingMD := MD.pairs [(authorizationKey, vals)] } }

/-- An option set with the given credential table. -/
def credSet (table : List (GoString × GoString)) : optionSet :=
  { EntryName := [], EntryType := [], credentials := table }

/-- The five errors of `serverBefore`, in the order of its checks. -/
def serverBeforeErrors : List Status :=
  [errMissingHeader, errMissingScheme, errInvalidBase64, errInvalidFormat, errInvalidCredentials]

/-! ## Building a context: `ToRkContext` and its options -/

/-- Modelled from the spec: the option `WithEvent`; a nil event leaves the
default in place (`TestWithEvent_WithNilInput`). -/
def WithEvent (event : Option Event) (p : payload) : payload :=
  match event with
  | some e => { p with event := some e }
  | none => p

/-- Modelled from the spec: the option `WithZapLogger`; a nil logger leaves the
default in place (`TestWithZapLogger_WithNilInput`). -/
def WithZapLogger (logger : Option Logger) (p : payload) : payload :=
  match logger with
  | some l => { p with logger := some l }
  | none => p

/-- Modelled from the spec: the option `WithEntryName`. -/
def WithEntryName (entryName : GoString) (p : payload) : payload :=
  { p with entryName := entryName }

/-- Modelled from the spec: the option `WithIncomingMD`; a nil map leaves the
default in place (`TestWithIncomingMD_WithNilInput`). -/
def WithIncomingMD (md : MD) (p : payload) : payload :=
  match md with
  | MD.null => p
  | MD.pairs kvs => { p with incomingMD := MD.pairs kvs }

/-- Modelled from the spec: the option `WithOutgoingMD`; a nil map leaves the
default in place (`TestWithOutgoingMD_WithNilInput`). -/
def WithOutgoingMD (md : MD) (p : payload) : payload :=
  match md with
  | MD.null => p
  | MD.pairs kvs => { p with outgoingMD := MD.pairs kvs }

/-- Modelled from the spec: the option `WithRpcInfo`; a nil RpcInfo leaves the
payload without one (`TestWithRpcInfo_WithNilInput`). -/
def WithRpcInfo (info : Option RpcInfo) (p : payload) : payload :=
  match info with
  | some i => { p with rpcInfo := some i }
  | none => p

/-- Modelled from the spec: `ToRkContext` of package `rkgrpcctx` (spec section
4.1, `attach`): a new context over the base one (the background context for a
nil base) that carries a fresh default payload with the options applied in
order. -/
def ToRkContext (ctx : Context) (opts : List (payload → payload)) : Context :=
  let base := ctx.getD Ctx.todo
  some { base with rk := some (opts.foldl (fun p opt => opt p) defaultPayload) }

/-! ## `net.SplitHostPort` -/

/-- Go `net.AddrError`. -/
structure AddrError where
  Err : String
  Addr : GoString
deriving DecidableEq, Repr

/-- The closure `addrErr` of `net.SplitHostPort`. -/
def addrErr (addr : GoString) (why : String) : GoString × GoString × Option AddrError :=
  ([], [], some { Err := why, Addr := addr })

/-- The tail of `net.SplitHostPort`, after `host`, `j` and `k` are known. -/
def splitHostPortTail (hostport host : GoString) (i : Int) (j k : Nat) :
    GoString × GoString × Option AddrError :=
  if 0 ≤ IndexByte (hostport.drop j) 91 then addrErr hostport "unexpected '[' in address"
  else if 0 ≤ IndexByte (hostport.drop k) 93 then addrErr hostport "unexpected ']' in address"
  else (host, hostport.drop (i.toNat + 1), none)

/-- Go `net.SplitHostPort`: `(host, port, err)`. -/
def SplitHostPort (hostport : GoString) : GoString × GoString × Option AddrError :=
  let i := LastIndexByte hostport 58
  if i < 0 then addrErr hostport "missing port in address"
  else if hostport.head? = some 91 then
    let endIdx := IndexByte hostport 93
    if endIdx < 0 then addrErr hostport "missing ']' in address"
    else if endIdx + 1 = hostport.length then addrErr hostport "missing port in address"
    else if endIdx + 1 = i then
      splitHostPortTail hostport ((hostport.take endIdx.toNat).drop 1) i 1 (endIdx.toNat + 1)
    else if hostport.get? (endIdx.toNat + 1) = some 58 then
      addrErr hostport "too many colons in address"
    else addrErr hostport "missing port in address"
  else
    let host := hostport.take i.toNat
    if 0 ≤ IndexByte host 58 then addrErr hostport "too many colons in address"
    else splitHostPortTail hostport host i 0 0

/-! ## The interceptors -/

/-- What a wrapped call (handler, invoker, streamer) does when it runs: the
values it returns, and the contents of the context it ran on when it returns
(it may have written through the payload reference). -/
structure Ran (ρ : Type) where
  ret : ρ
  ctx : Context

/-- What an interceptor does: the values it returns, the contents of the call
context when it returns, and the arguments of every invocation of the wrapped
call, in order. -/
structure Outcome (ι ρ : Type) where
  ret : ρ
  ctx : Context
  calls : List ι

/-- The function returned by `UnaryServerInterceptor` of package
`rkgrpcbasicauth`, for the option set built at installation. The response is
`none` for a nil interface value. -/
def UnaryServerInterceptor {Req Resp : Type} (set : optionSet) (ctx : Context) (req : Req)
    (handler : Context → Req → Ran (Option Resp × Option Status)) :
    Outcome (Context × Req) (Option Resp × Option Status) :=
  match serverBefore ctx set with
  | some err => { ret := (none, some err), ctx := setRpcInfoErr ctx (some err), calls := [] }
  | none =>
    let r := handler ctx req
    { ret := r.ret, ctx := r.ctx, calls := [(ctx, req)] }

/-- A `grpc.ServerStream`: an identity and the context it answers. -/
structure ServerStream where
  id : Nat
  ctx : Context

/-- The struct `rkgrpcctx.WrappedServerStream`. -/
structure WrappedServerStream where
  ServerStream : ServerStream
  WrappedContext : Context

/-- The function returned by `StreamServerInterceptor` of package
`rkgrpcbasicauth`. `WrapServerStream`, of package `rkgrpcctx`, is not in the
sources and is taken as given. -/
def StreamServerInterceptor {Srv : Type} (WrapServerStream : ServerStream → WrappedServerStream)
    (set : optionSet) (srv : Srv) (stream : ServerStream)
    (handler : Srv → WrappedServerStream → Ran (Option Status)) :
    Outcome (Srv × WrappedServerStream) (Option Status) :=
  let wrappedStream := WrapServerStream stream
  let ctx := wrappedStream.WrappedContext
  match serverBefore ctx set with
  | some err => { ret := some err, ctx := setRpcInfoErr ctx (some err), calls := [] }
  | none =>
    let r := handler srv wrappedStream
    { ret := r.ret, ctx := setRpcInfoErr r.ctx r.ret, calls := [(srv, wrappedStream)] }

/-- Modelled from the spec: the call types of package `rkgrpcbasic` (spec
section 3, `callType`); the constants are not in the sources. -/
def RpcTypeUnaryServer : GoString := str "UnaryServer"

/-- Modelled from the spec: see `RpcTypeUnaryServer`. -/
def RpcTypeStreamServer : GoString := str "StreamServer"

/-- Modelled from the spec: see `RpcTypeUnaryServer`. -/
def RpcTypeUnaryClient : GoString := str "UnaryClient"

/-- Modelled from the spec: see `RpcTypeUnaryServer`. -/
def RpcTypeStreamClient : GoString := str "StreamClient"

/-- Modelled from the spec: the struct `optionSet` of package `rkgrpcbasic`,
whose declaration is not in the sources. -/
structure rkgrpcbasic.optionSet where
  EntryName : GoString
  EntryType : GoString
deriving DecidableEq, Repr

/-- A `grpc.CallOption`: the option `grpc.Header(&md)`, or another one. -/
inductive CallOption where
  | Header : MD → CallOption
  | other : Nat → CallOption
deriving DecidableEq, Repr

/-- A `*grpc.ClientConn`, as far as the interceptors read it: `cc.Target()`. -/
structure ClientConn where
  target : GoString
deriving DecidableEq, Repr

/-- The helpers `getGrpcInfo` and `getGwInfo` of package `rkgrpcbasic`, which
are not in the sources and are taken as given. -/
structure Helpers where
  getGrpcInfo : GoString → GoString × GoString
  getGwInfo : MD → GoString × GoString × GoString × GoString

/-- The arguments of one call of a `grpc.UnaryInvoker`. -/
structure UnaryInvocation (Req Resp : Type) where
  ctx : Context
  method : GoString
  req : Req
  resp : Resp
  cc : ClientConn
  opts : List CallOption

/-- The context that both client interceptors build before invoking (lines
18 to 40 of `UnaryClientInterceptor`, 62 to 84 of `StreamClientInterceptor`,
which differ in the call type only). The error of `net.SplitHostPort` is
dropped, as in `remoteIp, remotePort, _ := net.SplitHostPort(cc.Target())`. -/
def clientContext (h : Helpers) (EntryName rpcType : GoString) (ctx : Context)
    (method : GoString) (cc : ClientConn) : Context :=
  let outgoingMD := GetOutgoingMD ctx
  let incomingMD := GetIncomingMD ctx
  let split := SplitHostPort cc.target
  let grpcInfo := h.getGrpcInfo method
  let gwInfo := h.getGwInfo incomingMD
  ToRkContext ctx
    [WithEntryName EntryName,
     WithIncomingMD incomingMD,
     WithOutgoingMD outgoingMD,
     WithRpcInfo (some
       { GrpcService := grpcInfo.1,
         GrpcMethod := grpcInfo.2,
         GwMethod := gwInfo.1,
         GwPath := gwInfo.2.1,
         GwScheme := gwInfo.2.2.1,
         GwUserAgent := gwInfo.2.2.2,
         RpcType := rpcType,
         RemoteIp := split.1,
         RemotePort := split.2.1,
         Err := none })]

/-- The function returned by `UnaryClientInterceptor` of package
`rkgrpcbasic`. -/
def UnaryClientInterceptor {Req Resp : Type} (h : Helpers) (set : rkgrpcbasic.optionSet)
    (ctx : Context) (method : GoString) (req : Req) (resp : Resp) (cc : ClientConn)
    (invoker : UnaryInvocation Req Resp → Ran (Option Status)) (opts : List CallOption) :
    Outcome (UnaryInvocation Req Resp) (Option Status) :=
  let ctx := clientContext h set.EntryName RpcTypeUnaryClient ctx method cc
  let md := GetIncomingMD ctx
  let opts := opts ++ [CallOption.Header md]
  let args : UnaryInvocation Req Resp :=
    { ctx := ctx, method := method, req := req, resp := resp, cc := cc, opts := opts }
  let r := invoker args
  { ret := r.ret, ctx := setRpcInfoErr r.ctx r.ret, calls := [args] }

/-- The arguments of one call of a `grpc.Streamer`. -/
structure StreamInvocation (Desc : Type) where
  ctx : Context
  desc : Desc
  cc : ClientConn
  method : GoString
  opts : List CallOption

/-- The function returned by `StreamClientInterceptor` of package
`rkgrpcbasic`. The client stream is `none` for a nil interface value. -/
def StreamClientInterceptor {Desc Stream : Type} (h : Helpers) (set : rkgrpcbasic.optionSet)
    (ctx : Context) (desc : Desc) (cc : ClientConn) (method : GoString)
    (streamer : StreamInvocation Desc → Ran (Option Stream × Option Status))
    (opts : List CallOption) :
    Outcome (StreamInvocation Desc) (Option Stream × Option Status) :=
  let ctx := clientContext h set.EntryName RpcTypeStreamClient ctx method cc
  let md := GetIncomingMD ctx
  let opts := opts ++ [CallOption.Header md]
  let args : StreamInvocation Desc :=
    { ctx := ctx, desc := desc, cc := cc, method := method, opts := opts }
  let r := streamer args
  { ret := r.ret, ctx := setRpcInfoErr r.ctx r.ret.2, calls := [args] }

/-- The context of a server call whose payload holds an RpcInfo with a nil
`Err` and caches the given values under "authorization". -/
def infoCtx (vals : List GoString) : Context :=
  some { incoming := none, outgoing := none,
         rk := some { defaultPayload with
           incomingMD := MD.pairs [(authorizationKey, vals)],
           rpcInfo := some
             { GrpcService := [], GrpcMethod := [], GwMethod := [], GwPath := [], GwScheme := [],
               GwUserAgent := [], RpcType := RpcTypeUnaryServer, RemoteIp := [], RemotePort := [],
               Err := none } } }

/-- The header value "Bearer " ++ base64("alice:secret"). -/
def aliceHeader : GoString := bearer ++ EncodeToString (str "alice:secret")

/-- The option set with the credential table {alice: secret}. -/
def aliceSet : optionSet := credSet [(str "alice", str "secret")]

/-- An error a handler may return. -/
def handlerErr : Status := { code := Code.Internal, msg := "boom" }

/-- A unary handler that fails with `handlerErr` and leaves the context as it
found it. -/
def failingHandler (ctx : Context) (_req : Nat) : Ran (Option Nat × Option Status) :=
  { ret := (none, some handlerErr), ctx := ctx }

/-- A stream handler that fails with `handlerErr` and leaves the context as it
found it. -/
def failingStreamHandler (_srv : Nat) (stream : WrappedServerStream) : Ran (Option Status) :=
  { ret := some handlerErr, ctx := stream.WrappedContext }

/-- A wrapper that exposes the context of the stream it wraps. -/
def plainWrap (stream : ServerStream) : WrappedServerStream :=
  { ServerStream := stream, WrappedContext := stream.ctx }

/-- Helpers that answer empty strings. -/
def emptyHelpers : Helpers :=
  { getGrpcInfo := fun _ => ([], []), getGwInfo := fun _ => ([], [], [], []) }

/-- An option set of a client interceptor. -/
def clientSet : rkgrpcbasic.optionSet := { EntryName := str "ut-entry", EntryType := str "grpc" }

/-- A unary invoker that fails with `handlerErr` and leaves the context as it
found it. -/
def failingInvoker (args : UnaryInvocation Nat Nat) : Ran (Option Status) :=
  { ret := some handlerErr, ctx := args.ctx }

/-- A streamer that fails with `handlerErr` and leaves the context as it found
it. -/
def failingStreamer (args : StreamInvocation Nat) : Ran (Option Nat × Option Status) :=
  { ret := (none, some handlerErr), ctx := args.ctx }

/-- The header key "x-request-id". -/
def requestIdKey : GoString := str "x-request-id"

/-- The context of a server call whose payload caches the incoming metadata
{x-request-id: [42]} and an empty outgoing metadata: the context on which a
nested client call is made. -/
def nestedCtx : Context :=
  some { incoming := some (MD.pairs [(requestIdKey, [str "42"])]), outgoing := none,
         rk := some { defaultPayload with incomingMD := MD.pairs [(requestIdKey, [str "42"])] } }

/-! ## Setters of package `rkgrpcctx` -/

/-- Modelled from the spec: `NewContext` of package `rkgrpcctx`: a fresh context
carrying a default payload (`TestNewContext_HappyCase`). -/
def NewContext : Context := ToRkContext (some Ctx.todo) []

/-- Modelled from the spec: `SetLogger` of package `rkgrpcctx` (spec section
4.1, field-level setters mutate the payload in place): the context with the
logger of its payload replaced; without a payload there is nothing to write
to. -/
def SetLogger (ctx : Context) (logger : Option Logger) : Context :=
  match ctx with
  | some c =>
    match c.rk with
    | some p => some { c with rk := some { p with logger := logger } }
    | none => some c
  | none => none

/-- Appending a value under a key of a table: the values already under the
key are kept and the new one is put after them; an absent key is added. -/
def appendValue : List (GoString × List GoString) → GoString → GoString →
    List (GoString × List GoString)
  | [], k, v => [(k, [v])]
  | (k0, vs) :: rest, k, v =>
    if k0 = k then (k0, vs ++ [v]) :: rest else (k0, vs) :: appendValue rest k v

/-- Modelled from the spec: appending `value` under `key` into a header set,
creating the set if there is none (spec section 4.2, `mergeOutgoing`). -/
def MD.append (md : MD) (key value : GoString) : MD :=
  match md with
  | MD.null => MD.pairs [(key, [value])]
  | MD.pairs kvs => MD.pairs (appendValue kvs key value)

/-- Modelled from the spec: `AddToOutgoingMD` of package `rkgrpcctx` (spec
section 4.2, `mergeOutgoing`, and `TestAddToOutgoingMD_*`): the value is
appended under the key in the outgoing metadata of the payload; a context
without a payload, the nil context included, is left as it is. -/
def AddToOutgoingMD (ctx : Context) (key value : GoString) : Context :=
  match ctx with
  | some c =>
    match c.rk with
    | some p => some { c with rk := some { p with outgoingMD := p.outgoingMD.append key value } }
    | none => some c
  | none => none

/-! ## The TV entry of package `rkgrpc` (`boot/tv_entry.go`) -/

/-- The constant `TvEntryType`. -/
def TvEntryType : GoString := str "GrpcTvEntry"

/-- The constant `TvEntryNameDefault`. -/
def TvEntryNameDefault : GoString := str "GrpcTvDefault"

/-- The constant `TvEntryDescription`. -/
def TvEntryDescription : GoString :=
  str "Internal RK entry which implements tv web with grpc framework."

/-- A `*rkentry.ZapLoggerEntry`, by identity. -/
structure ZapLoggerEntry where
  id : Nat
deriving DecidableEq, Repr

/-- A `*rkentry.EventLoggerEntry`, by identity. -/
structure EventLoggerEntry where
  id : Nat
deriving DecidableEq, Repr

/-- The struct `TvEntry`, without its `Template` field, which `NewTvEntry`
leaves nil. A `none` entry pointer is nil. -/
structure TvEntry where
  EntryName : GoString
  EntryType : GoString
  EntryDescription : GoString
  ZapLoggerEntry : Option ZapLoggerEntry
  EventLoggerEntry : Option EventLoggerEntry
deriving DecidableEq, Repr

/-- The type `TvEntryOption`, `func(entry *TvEntry)`: the entry after the call. -/
abbrev TvEntryOption := TvEntry → TvEntry

/-- The option `WithNameTv`. -/
def WithNameTv (name : GoString) : TvEntryOption :=
  fun entry => { entry with EntryName := name }

/-- The option `WithEventLoggerEntryTv`. -/
def WithEventLoggerEntryTv (eventLoggerEntry : Option EventLoggerEntry) : TvEntryOption :=
  fun entry => { entry with EventLoggerEntry := eventLoggerEntry }

/-- The option `WithZapLoggerEntryTv`. -/
def WithZapLoggerEntryTv (zapLoggerEntry : Option ZapLoggerEntry) : TvEntryOption :=
  fun entry => { entry with ZapLoggerEntry := zapLoggerEntry }

/-- The defaults that `rkentry.GlobalAppCtx` answers. -/
structure GlobalAppCtx where
  zapLoggerEntryDefault : Option ZapLoggerEntry
  eventLoggerEntryDefault : Option EventLoggerEntry

/-- The function `NewTvEntry`. -/
def NewTvEntry (g : GlobalAppCtx) (opts : List TvEntryOption) : TvEntry :=
  let entry : TvEntry :=
    { EntryName := TvEntryNameDefault,
      EntryType := TvEntryType,
      EntryDescription := TvEntryDescription,
      ZapLoggerEntry := g.zapLoggerEntryDefault,
      EventLoggerEntry := g.eventLoggerEntryDefault }
  let entry := opts.foldl (fun e opt => opt e) entry
  if entry.EntryName.length < 1 then { entry with EntryName := TvEntryNameDefault } else entry

/-- The method `GetName`. -/
def TvEntry.GetName (entry : TvEntry) : GoString := entry.EntryName

/-- The method `GetType`. -/
def TvEntry.GetType (entry : TvEntry) : GoString := entry.EntryType

/-- The method `GetDescription`. -/
def TvEntry.GetDescription (entry : TvEntry) : GoString := entry.EntryDescription

/-- A call of one of the three option constructors of the package. -/
inductive TvOptionCall where
  | name : GoString → TvOptionCall
  | eventLogger : Option EventLoggerEntry → TvOptionCall
  | zapLogger : Option ZapLoggerEntry → TvOptionCall
deriving DecidableEq, Repr

/-- The option that a constructor call yields. -/
def TvOptionCall.toOption : TvOptionCall → TvEntryOption
  | TvOptionCall.name n => WithNameTv n
  | TvOptionCall.eventLogger e => WithEventLoggerEntryTv e
  | TvOptionCall.zapLogger z => WithZapLoggerEntryTv z

/-- The name a constructor call supplies, if it is a call of `WithNameTv`. -/
def TvOptionCall.nameOf : TvOptionCall → Option GoString
  | TvOptionCall.name n => some n
  | TvOptionCall.eventLogger _ => none
  | TvOptionCall.zapLogger _ => none

/-- The name supplied by the last `WithNameTv` among the calls, if any. -/
def lastNameSupplied : List TvOptionCall → Option GoString
  | [] => none
  | call :: rest => (lastNameSupplied rest).orElse (fun _ => call.nameOf)

/-- The entry name the calls ask for: the last name supplied when it is not
empty, the default name otherwise. -/
def expectedTvName (calls : List TvOptionCall) : GoString :=
  match lastNameSupplied calls with
  | some n => if n = [] then TvEntryNameDefault else n
  | none => TvEntryNameDefault

/-- The six options of `TestContextWithPayload_HappyCase`, each with a non-nil
value. -/
def allOptions (event : Event) (logger : Logger) (entryName : GoString)
    (incoming outgoing : List (GoString × List GoString)) (info : RpcInfo) :
    List (payload → payload) :=
  [WithEvent (some event), WithZapLogger (some logger), WithEntryName entryName,
   WithIncomingMD (MD.pairs incoming), WithOutgoingMD (MD.pairs outgoing),
   WithRpcInfo (some info)]

/-- The context of a server call whose payload caches a first authorization
value followed by another one, next to a further metadata key. -/
def crowdedCtx (first : GoString) : Context :=
  some { incoming := none, outgoing := none,
         rk := some { defaultPayload with
           incomingMD := MD.pairs
             [(str "x-request-id", [str "42"]),
              (authorizationKey, [first, str "Bearer garbage"])] } }

/-- Defaults of the global application context. -/
def someGlobals : GlobalAppCtx :=
  { zapLoggerEntryDefault := some ⟨1⟩, eventLoggerEntryDefault := some ⟨2⟩ }

/-- An option written by a caller, `func(e *TvEntry) { e.EntryType = "X" }`:
`TvEntryOption` is an exported function type and the fields of `TvEntry` are
exported, so the package's constructors are not the only way to make one. -/
def customTypeOption : TvEntryOption :=
  fun entry => { entry with EntryType := str "X" }

/-! # Theorems -/

/-! ## Lemmas on the string functions -/

theorem hasPrefix_iff (s pre : GoString) :
    HasPrefix s pre = true ↔ ∃ t, s = pre ++ t := by
  unfold HasPrefix
  constructor
  · intro h
    simp only [Bool.and_eq_true, decide_eq_true_eq] at h
    refine ⟨s.drop pre.length, ?_⟩
    conv_lhs => rw [← List.take_append_drop pre.length s]
    rw [h.2]
  · rintro ⟨t, rfl⟩
    simp

theorem indexByte_ge (s : GoString) (c : Nat) : -1 ≤ IndexByte s c := by
  induction s with
  | nil => simp [IndexByte]
  | cons b rest ih =>
    unfold IndexByte
    split
    · omega
    · split <;> omega

theorem indexByte_neg_iff (s : GoString) (c : Nat) : IndexByte s c < 0 ↔ c ∉ s := by
  induction s with
  | nil => simp [IndexByte]
  | cons b rest ih =>
    unfold IndexByte
    by_cases hb : b = c
    · simp [hb]
    · have hc : ¬ c = b := fun h => hb h.symm
      simp only [hb, if_false, List.mem_cons, hc, false_or]
      have := indexByte_ge rest c
      split
      · rename_i h; simp [← ih, h]
      · rename_i h
        constructor
        · intro h2; omega
        · intro h2; exact absurd (ih.mpr h2) h

theorem take_indexByte (s : GoString) (c : Nat) (h : c ∈ s) :
    s.take (IndexByte s c).toNat = s.takeWhile (fun b => decide (b ≠ c)) := by
  induction s with
  | nil => simp at h
  | cons b rest ih =>
    unfold IndexByte
    by_cases hb : b = c
    · simp [hb, List.takeWhile]
    · have hr : c ∈ rest := by
        rcases List.mem_cons.mp h with h1 | h1
        · exact absurd h1.symm hb
        · exact h1
      have hn : ¬ IndexByte rest c < 0 := fun hlt => (indexByte_neg_iff rest c).mp hlt hr
      have hnat : (IndexByte rest c + 1).toNat = (IndexByte rest c).toNat + 1 := by omega
      simp only [hb, if_false, hn, hnat, List.take_succ_cons, ih hr]
      simp [List.takeWhile, hb]

theorem drop_indexByte (s : GoString) (c : Nat) (h : c ∈ s) :
    s.drop ((IndexByte s c).toNat + 1) = (s.dropWhile (fun b => decide (b ≠ c))).tail := by
  induction s with
  | nil => simp at h
  | cons b rest ih =>
    unfold IndexByte
    by_cases hb : b = c
    · simp [hb, List.dropWhile]
    · have hr : c ∈ rest := by
        rcases List.mem_cons.mp h with h1 | h1
        · exact absurd h1.symm hb
        · exact h1
      have hn : ¬ IndexByte rest c < 0 := fun hlt => (indexByte_neg_iff rest c).mp hlt hr
      have hnat : (IndexByte rest c + 1).toNat = (IndexByte rest c).toNat + 1 := by omega
      simp only [hb, if_false, hn, hnat, List.drop_succ_cons, ih hr]
      simp [List.dropWhile, hb]

/-! ## `serverBefore` -/

theorem bearer_length : bearer.length = 7 := by decide

/-- What `serverBefore` returns once the first header value is known to be
`"Bearer "` followed by `rest`. -/
theorem serverBefore_bearer (ctx : Context) (set : optionSet) (rest : GoString)
    (more : List GoString)
    (hval : GetValueFromIncomingMD ctx authorizationKey = (bearer ++ rest) :: more) :
    serverBefore ctx set =
      match DecodeString rest with
      | none => some errInvalidBase64
      | some credStr =>
        if 58 ∈ credStr then
          if set.Authorized (beforeFirst credStr 58) (afterFirst credStr 58) then none
          else some errInvalidCredentials
        else some errInvalidFormat := by
  have hpre : HasPrefix (bearer ++ rest) bearer = true := (hasPrefix_iff _ _).mpr ⟨rest, rfl⟩
  simp only [serverBefore, hval, hpre, List.drop_left, Bool.not_true, Bool.false_eq_true,
    if_false]
  cases hd : DecodeString rest with
  | none => rfl
  | some credStr =>
    simp only
    by_cases hc : 58 ∈ credStr
    · have hn : ¬ IndexByte credStr 58 < 0 := fun h => (indexByte_neg_iff _ _).mp h hc
      rw [if_neg hn, if_pos hc, take_indexByte _ _ hc, drop_indexByte _ _ hc]
      unfold beforeFirst afterFirst
      cases set.Authorized _ _ <;> simp
    · have hn : IndexByte credStr 58 < 0 := (indexByte_neg_iff _ _).mpr hc
      rw [if_pos hn, if_neg hc]

/-- What `serverBefore` returns when the first header value does not start with
`"Bearer "`. -/
theorem serverBefore_noScheme (ctx : Context) (set : optionSet) (credRaw : GoString)
    (more : List GoString)
    (hval : GetValueFromIncomingMD ctx authorizationKey = credRaw :: more)
    (hpre : ¬ ∃ rest, credRaw = bearer ++ rest) :
    serverBefore ctx set = some errMissingScheme := by
  have h : HasPrefix credRaw bearer = false := by
    cases hh : HasPrefix credRaw bearer with
    | false => rfl
    | true => exact absurd ((hasPrefix_iff _ _).mp hh) hpre
  simp [serverBefore, hval, h]

theorem serverBefore_noHeader (ctx : Context) (set : optionSet)
    (hval : GetValueFromIncomingMD ctx authorizationKey = []) :
    serverBefore ctx set = some errMissingHeader := by
  simp [serverBefore, hval]

/-- C1: `serverBefore` returns no error if and only if the incoming metadata has
a first value under "authorization", that value is "Bearer " followed by a
remainder, the remainder decodes under standard base64, the decoded string
contains a ':' byte, and the option set authorizes the bytes before the first
':' as username with everything after it as password. -/
theorem serverBefore_eq_none_iff (ctx : Context) (set : optionSet) :
    serverBefore ctx set = none ↔
      ∃ (rest : GoString) (more : List GoString) (credStr : GoString),
        GetValueFromIncomingMD ctx authorizationKey = (bearer ++ rest) :: more ∧
        DecodeString rest = some credStr ∧
        58 ∈ credStr ∧
        set.Authorized (beforeFirst credStr 58) (afterFirst credStr 58) = true := by
  constructor
  · intro h
    cases hval : GetValueFromIncomingMD ctx authorizationKey with
    | nil => rw [serverBefore_noHeader ctx set hval] at h; cases h
    | cons credRaw more =>
      by_cases hpre : ∃ rest, credRaw = bearer ++ rest
      · obtain ⟨rest, rfl⟩ := hpre
        rw [serverBefore_bearer ctx set rest more hval] at h
        cases hd : DecodeString rest with
        | none => rw [hd] at h; cases h
        | some credStr =>
          rw [hd] at h
          simp only at h
          by_cases hc : 58 ∈ credStr
          · rw [if_pos hc] at h
            cases ha : set.Authorized (beforeFirst credStr 58) (afterFirst credStr 58) with
            | true => exact ⟨rest, more, credStr, rfl, hd, hc, ha⟩
            | false => rw [ha] at h; cases h
          · rw [if_neg hc] at h; cases h
      · rw [serverBefore_noScheme ctx set credRaw more hval hpre] at h; cases h
  · rintro ⟨rest, more, credStr, hval, hd, hc, ha⟩
    rw [serverBefore_bearer ctx set rest more hval, hd]
    simp [hc, ha]

/-- C2: every error of `serverBefore` carries the Unauthenticated code and is
the error of the first failing step in the order missing header, missing
scheme, invalid base64, missing ':' separator, credentials not authorized; the
five messages are pairwise distinct; the header "Basic " ++ base64("alice:secret")
fails with the missing-scheme error. -/
theorem serverBefore_first_failure (ctx : Context) (set : optionSet) :
    (∀ e, serverBefore ctx set = some e →
      e.code = Code.Unauthenticated ∧ e ∈ serverBeforeErrors) ∧
    (GetValueFromIncomingMD ctx authorizationKey = [] →
      serverBefore ctx set = some errMissingHeader) ∧
    (∀ credRaw more, GetValueFromIncomingMD ctx authorizationKey = credRaw :: more →
      (¬ ∃ rest, credRaw = bearer ++ rest) →
      serverBefore ctx set = some errMissingScheme) ∧
    (∀ rest more, GetValueFromIncomingMD ctx authorizationKey = (bearer ++ rest) :: more →
      DecodeString rest = none →
      serverBefore ctx set = some errInvalidBase64) ∧
    (∀ rest more credStr,
      GetValueFromIncomingMD ctx authorizationKey = (bearer ++ rest) :: more →
      DecodeString rest = some credStr → 58 ∉ credStr →
      serverBefore ctx set = some errInvalidFormat) ∧
    (∀ rest more credStr,
      GetValueFromIncomingMD ctx authorizationKey = (bearer ++ rest) :: more →
      DecodeString rest = some credStr → 58 ∈ credStr →
      set.Authorized (beforeFirst credStr 58) (afterFirst credStr 58) = false →
      serverBefore ctx set = some errInvalidCredentials) ∧
    (serverBeforeErrors.map Status.msg).Nodup ∧
    serverBefore none set = some errMissingHeader ∧
    serverBefore (authCtx [str "Basic " ++ EncodeToString (str "alice:secret")]) set =
      some errMissingScheme := by
  refine ⟨?_, serverBefore_noHeader ctx set, ?_, ?_, ?_, ?_, by decide, rfl, ?_⟩
  · intro e he
    cases hval : GetValueFromIncomingMD ctx authorizationKey with
    | nil =>
      rw [serverBefore_noHeader ctx set hval] at he
      cases he; decide
    | cons credRaw more =>
      by_cases hpre : ∃ rest, credRaw = bearer ++ rest
      · obtain ⟨rest, rfl⟩ := hpre
        rw [serverBefore_bearer ctx set rest more hval] at he
        cases hd : DecodeString rest with
        | none => rw [hd] at he; cases he; decide
        | some credStr =>
          rw [hd] at he
          simp only at he
          by_cases hc : 58 ∈ credStr
          · rw [if_pos hc] at he
            cases ha : set.Authorized (beforeFirst credStr 58) (afterFirst credStr 58) with
            | true => rw [ha] at he; cases he
            | false => rw [ha] at he; cases he; decide
          · rw [if_neg hc] at he; cases he; decide
      · rw [serverBefore_noScheme ctx set credRaw more hval hpre] at he
        cases he; decide
  · intro credRaw more hval hpre
    exact serverBefore_noScheme ctx set credRaw more hval hpre
  · intro rest more hval hd
    rw [serverBefore_bearer ctx set rest more hval, hd]
  · intro rest more credStr hval hd hc
    rw [serverBefore_bearer ctx set rest more hval, hd]
    simp [hc]
  · intro rest more credStr hval hd hc ha
    rw [serverBefore_bearer ctx set rest more hval, hd]
    simp [hc, ha]
  · apply serverBefore_noScheme _ set
      (str "Basic " ++ EncodeToString (str "alice:secret")) []
    · decide
    · rintro ⟨rest, h⟩
      have hb : bearer = [66, 101, 97, 114, 101, 114, 32] := by decide
      have hl : (str "Basic " ++ EncodeToString (str "alice:secret")).take 2 = [66, 97] := by
        decide
      have h2 := congrArg (List.take 2) h
      rw [hl, hb] at h2
      simp at h2

/-! ## Base64 round trip -/

theorem decodeMap_encodeStd (v : Nat) (h : v < 64) : decodeMap (encodeStd v) = some v := by
  unfold encodeStd decodeMap
  split_ifs <;> first | omega | (simp only [Option.some.injEq]; omega)

theorem quantumBytes_four (a b c : Nat) (ha : a < 256) (hb : b < 256) (hc : c < 256) :
    quantumBytes [a / 4, a % 4 * 16 + b / 16, b % 16 * 4 + c / 64, c % 64] = [a, b, c] := by
  simp only [quantumBytes, List.getD_cons_zero, List.getD_cons_succ, List.length_cons,
    List.length_nil, Nat.add_one_sub_one, List.take_succ_cons, List.take_zero]
  refine congrArg₂ _ ?_ (congrArg₂ _ ?_ (congrArg₂ _ ?_ rfl)) <;> omega

theorem quantumBytes_three (a b : Nat) (ha : a < 256) (hb : b < 256) :
    quantumBytes [a / 4, a % 4 * 16 + b / 16, b % 16 * 4] = [a, b] := by
  simp only [quantumBytes, List.getD_cons_zero, List.getD_cons_succ, List.length_cons,
    List.length_nil, Nat.add_one_sub_one, List.take_succ_cons, List.take_zero, List.getD_nil]
  refine congrArg₂ _ ?_ (congrArg₂ _ ?_ rfl) <;> omega

theorem quantumBytes_two (a : Nat) (ha : a < 256) :
    quantumBytes [a / 4, a % 4 * 16] = [a] := by
  simp only [quantumBytes, List.getD_cons_zero, List.getD_cons_succ, List.length_cons,
    List.length_nil, Nat.add_one_sub_one, List.take_succ_cons, List.take_zero, List.getD_nil]
  refine congrArg₂ _ ?_ rfl
  omega

theorem decodeMap_pad : decodeMap 61 = none := by decide

/-- Decoding what `EncodeToString` produced gives the bytes back. -/
theorem decodeString_encodeToString :
    ∀ (x : GoString), IsBytes x → DecodeString (EncodeToString x) = some x
  | [], _ => by decide
  | [a], h => by
    have ha : a < 256 := h a (by simp)
    have h1 : a / 4 < 64 := by omega
    have h2 : a % 4 * 16 < 64 := by omega
    simp [DecodeString, EncodeToString, decodeFrom, decodeMap_encodeStd _ h1,
      decodeMap_encodeStd _ h2, decodeMap_pad, skipNewlines, quantumBytes_two a ha]
  | [a, b], h => by
    have ha : a < 256 := h a (by simp)
    have hb : b < 256 := h b (by simp)
    have h1 : a / 4 < 64 := by omega
    have h2 : a % 4 * 16 + b / 16 < 64 := by omega
    have h3 : b % 16 * 4 < 64 := by omega
    simp [DecodeString, EncodeToString, decodeFrom, decodeMap_encodeStd _ h1,
      decodeMap_encodeStd _ h2, decodeMap_encodeStd _ h3, decodeMap_pad, skipNewlines,
      quantumBytes_three a b ha hb]
  | a :: b :: c :: rest, h => by
    have ha : a < 256 := h a (by simp)
    have hb : b < 256 := h b (by simp)
    have hc : c < 256 := h c (by simp)
    have hrest : IsBytes rest := fun x hx => h x (by simp [hx])
    have h1 : a / 4 < 64 := by omega
    have h2 : a % 4 * 16 + b / 16 < 64 := by omega
    have h3 : b % 16 * 4 + c / 64 < 64 := by omega
    have h4 : c % 64 < 64 := by omega
    have ih := decodeString_encodeToString rest hrest
    unfold DecodeString at ih
    simp [DecodeString, EncodeToString, decodeFrom, decodeMap_encodeStd _ h1,
      decodeMap_encodeStd _ h2, decodeMap_encodeStd _ h3, decodeMap_encodeStd _ h4,
      quantumBytes_four a b c ha hb hc, ih]

theorem beforeFirst_append (u p : GoString) (c : Nat) (hu : c ∉ u) :
    beforeFirst (u ++ c :: p) c = u := by
  unfold beforeFirst
  induction u with
  | nil => simp [List.takeWhile]
  | cons b rest ih =>
    have hb : b ≠ c := fun h => hu (by simp [h])
    have hr : c ∉ rest := fun h => hu (by simp [h])
    have h := ih hr
    simpa [List.takeWhile, hb] using h

theorem afterFirst_append (u p : GoString) (c : Nat) (hu : c ∉ u) :
    afterFirst (u ++ c :: p) c = p := by
  unfold afterFirst
  induction u with
  | nil => simp [List.dropWhile]
  | cons b rest ih =>
    have hb : b ≠ c := fun h => hu (by simp [h])
    have hr : c ∉ rest := fun h => hu (by simp [h])
    have h := ih hr
    simpa [List.dropWhile, hb] using h

/-- C3: when the first authorization value is "Bearer " followed by the
standard base64 encoding of `u ++ ":" ++ p`, with `u` free of ':', the
credential is split back into exactly `(u, p)`, and `serverBefore` succeeds
iff that pair is an exact match in the credential table and fails with
"Invalid username or password" otherwise. -/
theorem serverBefore_roundTrip (ctx : Context) (set : optionSet) (u p : GoString)
    (more : List GoString) (hu : IsBytes u) (hp : IsBytes p) (hcolon : 58 ∉ u)
    (hval : GetValueFromIncomingMD ctx authorizationKey =
      (bearer ++ EncodeToString (u ++ 58 :: p)) :: more) :
    DecodeString (EncodeToString (u ++ 58 :: p)) = some (u ++ 58 :: p) ∧
    beforeFirst (u ++ 58 :: p) 58 = u ∧ afterFirst (u ++ 58 :: p) 58 = p ∧
    (serverBefore ctx set = none ↔ set.credentials.lookup u = some p) ∧
    (set.credentials.lookup u ≠ some p →
      serverBefore ctx set = some errInvalidCredentials) ∧
    errInvalidCredentials.msg = "Invalid username or password" := by
  have hb : IsBytes (u ++ 58 :: p) := by
    intro b hmem
    rcases List.mem_append.mp hmem with h | h
    · exact hu b h
    · rcases List.mem_cons.mp h with h | h
      · omega
      · exact hp b h
  have hd := decodeString_encodeToString _ hb
  have hmem : 58 ∈ u ++ 58 :: p := by simp
  have hsb := serverBefore_bearer ctx set _ more hval
  rw [hd] at hsb
  simp only [hmem, if_true, beforeFirst_append u p 58 hcolon,
    afterFirst_append u p 58 hcolon] at hsb
  have hauth : set.Authorized u p = true ↔ set.credentials.lookup u = some p := by
    unfold optionSet.Authorized
    cases set.credentials.lookup u with
    | none => simp
    | some e => simp
  refine ⟨hd, beforeFirst_append u p 58 hcolon, afterFirst_append u p 58 hcolon, ?_, ?_, rfl⟩
  · rw [hsb, ← hauth]
    cases set.Authorized u p <;> simp
  · intro hne
    rw [hsb]
    have : set.Authorized u p = false := by
      cases h : set.Authorized u p with
      | false => rfl
      | true => exact absurd (hauth.mp h) hne
    simp [this]

/-- The round trip at "Bearer " ++ base64("alice:secret"): success with the
table {alice: secret}, "Invalid username or password" with {alice: wrong}. -/
theorem serverBefore_roundTrip_witness :
    serverBefore (authCtx [bearer ++ EncodeToString (str "alice:secret")])
        (credSet [(str "alice", str "secret")]) = none ∧
    serverBefore (authCtx [bearer ++ EncodeToString (str "alice:secret")])
        (credSet [(str "alice", str "wrong")]) = some errInvalidCredentials :=
  ⟨(serverBefore_roundTrip (authCtx [bearer ++ EncodeToString (str "alice:secret")])
      (credSet [(str "alice", str "secret")]) (str "alice") (str "secret") []
      (by decide) (by decide) (by decide) (by decide)).2.2.2.1.mpr (by decide),
   (serverBefore_roundTrip (authCtx [bearer ++ EncodeToString (str "alice:secret")])
      (credSet [(str "alice", str "wrong")]) (str "alice") (str "secret") []
      (by decide) (by decide) (by decide) (by decide)).2.2.2.2.1 (by decide)⟩

/-! ## The interceptors -/

theorem getRpcInfo_setRpcInfoErr (ctx : Context) (err : Option Status) :
    GetRpcInfo (setRpcInfoErr ctx err) =
      (GetRpcInfo ctx).map (fun info => { info with Err := err }) := by
  rcases ctx with _ | ⟨inc, out, _ | ⟨ev, lg, en, im, om, _ | info⟩⟩ <;> rfl

/-- C4: when `serverBefore` returns an error, the unary and the stream server
interceptor never invoke the wrapped handler and return that error (with a nil
response in the unary case); an attached RpcInfo has its `Err` set to the
error, and without an RpcInfo the error is returned all the same. -/
theorem serverInterceptor_abort {Req Resp Srv : Type} (set : optionSet) (ctx : Context)
    (req : Req) (handler : Context → Req → Ran (Option Resp × Option Status))
    (WrapServerStream : ServerStream → WrappedServerStream) (srv : Srv) (stream : ServerStream)
    (shandler : Srv → WrappedServerStream → Ran (Option Status)) :
    (∀ e, serverBefore ctx set = some e →
      (UnaryServerInterceptor set ctx req handler).calls = [] ∧
      (UnaryServerInterceptor set ctx req handler).ret = (none, some e) ∧
      (∀ info, GetRpcInfo ctx = some info →
        GetRpcInfo (UnaryServerInterceptor set ctx req handler).ctx =
          some { info with Err := some e }) ∧
      (GetRpcInfo ctx = none →
        GetRpcInfo (UnaryServerInterceptor set ctx req handler).ctx = none)) ∧
    (∀ e, serverBefore (WrapServerStream stream).WrappedContext set = some e →
      (StreamServerInterceptor WrapServerStream set srv stream shandler).calls = [] ∧
      (StreamServerInterceptor WrapServerStream set srv stream shandler).ret = some e ∧
      (∀ info, GetRpcInfo (WrapServerStream stream).WrappedContext = some info →
        GetRpcInfo (StreamServerInterceptor WrapServerStream set srv stream shandler).ctx =
          some { info with Err := some e }) ∧
      (GetRpcInfo (WrapServerStream stream).WrappedContext = none →
        GetRpcInfo (StreamServerInterceptor WrapServerStream set srv stream shandler).ctx =
          none)) := by
  constructor
  · intro e hu
    simp only [UnaryServerInterceptor, hu, getRpcInfo_setRpcInfoErr]
    refine ⟨trivial, trivial, ?_, ?_⟩
    · intro info hi; rw [hi]; rfl
    · intro hi; rw [hi]; rfl
  · intro e hs
    simp only [StreamServerInterceptor, hs, getRpcInfo_setRpcInfoErr]
    refine ⟨trivial, trivial, ?_, ?_⟩
    · intro info hi; rw [hi]; rfl
    · intro hi; rw [hi]; rfl

/-- The abort transition at a call without an authorization value, with and
without an RpcInfo attached. -/
theorem serverInterceptor_abort_witness :
    serverBefore (infoCtx []) aliceSet = some errMissingHeader ∧
    (UnaryServerInterceptor aliceSet (infoCtx []) 0 failingHandler).calls = [] ∧
    (UnaryServerInterceptor aliceSet (infoCtx []) 0 failingHandler).ret =
      (none, some errMissingHeader) ∧
    (StreamServerInterceptor plainWrap aliceSet 0 ⟨0, authCtx []⟩ failingStreamHandler).ret =
      some errMissingHeader :=
  have h := serverInterceptor_abort aliceSet (infoCtx []) 0 failingHandler plainWrap 0
    ⟨0, authCtx []⟩ failingStreamHandler
  ⟨by decide, (h.1 errMissingHeader (by decide)).1, (h.1 errMissingHeader (by decide)).2.1,
    (h.2 errMissingHeader (by decide)).2.1⟩

/-- C5, at a failing input: the credentials are accepted and the handler
returns an error, the unary server interceptor returns that error, and the
`Err` of the attached RpcInfo, nil before the call, is still nil after it. -/
theorem unaryServerInterceptor_handler_error_unrecorded :
    serverBefore (infoCtx [aliceHeader]) aliceSet = none ∧
    (failingHandler (infoCtx [aliceHeader]) 0).ret.2 = some handlerErr ∧
    (UnaryServerInterceptor aliceSet (infoCtx [aliceHeader]) 0 failingHandler).ret =
      (none, some handlerErr) ∧
    (GetRpcInfo (infoCtx [aliceHeader])).map RpcInfo.Err = some none ∧
    (GetRpcInfo (UnaryServerInterceptor aliceSet (infoCtx [aliceHeader]) 0
      failingHandler).ctx).map RpcInfo.Err = some none := by
  decide

/-- The same call through the stream server interceptor records the error. -/
theorem streamServerInterceptor_handler_error_recorded :
    (GetRpcInfo (StreamServerInterceptor plainWrap aliceSet 0 ⟨0, infoCtx [aliceHeader]⟩
      failingStreamHandler).ctx).map RpcInfo.Err = some (some handlerErr) := by
  decide

theorem getRpcInfo_toRkContext_withRpcInfo (ctx : Context) (o1 o2 o3 : payload → payload)
    (info : RpcInfo) :
    GetRpcInfo (ToRkContext ctx [o1, o2, o3, WithRpcInfo (some info)]) = some info := by
  simp [ToRkContext, GetRpcInfo, WithRpcInfo]

theorem getRpcInfo_clientContext_ne (h : Helpers) (name rpcType : GoString) (ctx : Context)
    (method : GoString) (cc : ClientConn) :
    GetRpcInfo (clientContext h name rpcType ctx method cc) ≠ none := by
  unfold clientContext
  simp only [getRpcInfo_toRkContext_withRpcInfo]
  exact Option.some_ne_none _

/-- C6: in the stream server interceptor, once `serverBefore` has succeeded,
and in the unary and stream client interceptors, the RpcInfo attached to the
call context after the wrapped call has returned `err` has `Err = err`, so its
`Err` is nil iff the wrapped call returned no error; the context handed to an
invoker or streamer has an RpcInfo attached. -/
theorem rpcInfo_err_recorded {Srv Req Resp Desc Stream : Type}
    (WrapServerStream : ServerStream → WrappedServerStream) (set : optionSet) (srv : Srv)
    (stream : ServerStream) (shandler : Srv → WrappedServerStream → Ran (Option Status))
    (h : Helpers) (cset : rkgrpcbasic.optionSet) (ctx : Context) (method : GoString)
    (req : Req) (resp : Resp) (cc : ClientConn)
    (invoker : UnaryInvocation Req Resp → Ran (Option Status)) (opts : List CallOption)
    (desc : Desc) (streamer : StreamInvocation Desc → Ran (Option Stream × Option Status)) :
    (serverBefore (WrapServerStream stream).WrappedContext set = none →
      GetRpcInfo (StreamServerInterceptor WrapServerStream set srv stream shandler).ctx =
        (GetRpcInfo (shandler srv (WrapServerStream stream)).ctx).map
          (fun info => { info with Err := (shandler srv (WrapServerStream stream)).ret }) ∧
      ∀ info,
        GetRpcInfo (StreamServerInterceptor WrapServerStream set srv stream shandler).ctx =
          some info →
        info.Err = (shandler srv (WrapServerStream stream)).ret ∧
        (info.Err = none ↔ (shandler srv (WrapServerStream stream)).ret = none)) ∧
    (∃ args, (UnaryClientInterceptor h cset ctx method req resp cc invoker opts).calls = [args] ∧
      GetRpcInfo args.ctx ≠ none ∧
      GetRpcInfo (UnaryClientInterceptor h cset ctx method req resp cc invoker opts).ctx =
        (GetRpcInfo (invoker args).ctx).map
          (fun info => { info with Err := (invoker args).ret }) ∧
      ∀ info,
        GetRpcInfo (UnaryClientInterceptor h cset ctx method req resp cc invoker opts).ctx =
          some info →
        info.Err = (invoker args).ret ∧ (info.Err = none ↔ (invoker args).ret = none)) ∧
    (∃ args, (StreamClientInterceptor h cset ctx desc cc method streamer opts).calls = [args] ∧
      GetRpcInfo args.ctx ≠ none ∧
      GetRpcInfo (StreamClientInterceptor h cset ctx desc cc method streamer opts).ctx =
        (GetRpcInfo (streamer args).ctx).map
          (fun info => { info with Err := (streamer args).ret.2 }) ∧
      ∀ info,
        GetRpcInfo (StreamClientInterceptor h cset ctx desc cc method streamer opts).ctx =
          some info →
        info.Err = (streamer args).ret.2 ∧
        (info.Err = none ↔ (streamer args).ret.2 = none)) := by
  have key : ∀ (c : Context) (err : Option Status) (info : RpcInfo),
      GetRpcInfo (setRpcInfoErr c err) = some info →
      info.Err = err ∧ (info.Err = none ↔ err = none) := by
    intro c err info hi
    rw [getRpcInfo_setRpcInfoErr] at hi
    cases hc : GetRpcInfo c with
    | none => rw [hc] at hi; cases hi
    | some i0 =>
      rw [hc] at hi
      simp only [Option.map_some', Option.some.injEq] at hi
      subst hi
      exact ⟨rfl, Iff.rfl⟩
  refine ⟨?_, ?_, ?_⟩
  · intro hs
    simp only [StreamServerInterceptor, hs]
    exact ⟨getRpcInfo_setRpcInfoErr _ _, fun info hi => key _ _ info hi⟩
  · refine ⟨_, rfl, getRpcInfo_clientContext_ne _ _ _ _ _ _, ?_, ?_⟩
    · exact getRpcInfo_setRpcInfoErr _ _
    · exact fun info hi => key _ _ info hi
  · refine ⟨_, rfl, getRpcInfo_clientContext_ne _ _ _ _ _ _, ?_, ?_⟩
    · exact getRpcInfo_setRpcInfoErr _ _
    · exact fun info hi => key _ _ info hi

/-- The recording of the terminal error at a stream server call with accepted
credentials whose handler fails. -/
theorem rpcInfo_err_recorded_witness :
    serverBefore (plainWrap ⟨0, infoCtx [aliceHeader]⟩).WrappedContext aliceSet = none ∧
    ∀ info,
      GetRpcInfo (StreamServerInterceptor plainWrap aliceSet 0 ⟨0, infoCtx [aliceHeader]⟩
        failingStreamHandler).ctx = some info →
      info.Err = some handlerErr :=
  ⟨by decide, fun info hi =>
    (((rpcInfo_err_recorded plainWrap aliceSet 0 ⟨0, infoCtx [aliceHeader]⟩ failingStreamHandler
      emptyHelpers clientSet none [] 0 0 ⟨[]⟩ failingInvoker [] 0 failingStreamer).1
      (by decide)).2 info hi).1⟩

/-- C7: when `serverBefore` does not abort, each server interceptor returns
exactly what the wrapped handler returned, and each client interceptor returns
exactly what the invoker resp. streamer returned; in all four shapes the
wrapped call is invoked exactly once. -/
theorem interceptor_passThrough {Srv Req Resp Desc Stream : Type}
    (set : optionSet) (sctx : Context) (sreq : Req)
    (handler : Context → Req → Ran (Option Resp × Option Status))
    (WrapServerStream : ServerStream → WrappedServerStream) (srv : Srv)
    (stream : ServerStream) (shandler : Srv → WrappedServerStream → Ran (Option Status))
    (h : Helpers) (cset : rkgrpcbasic.optionSet) (ctx : Context) (method : GoString)
    (req : Req) (resp : Resp) (cc : ClientConn)
    (invoker : UnaryInvocation Req Resp → Ran (Option Status)) (opts : List CallOption)
    (desc : Desc) (streamer : StreamInvocation Desc → Ran (Option Stream × Option Status)) :
    (serverBefore sctx set = none →
      (UnaryServerInterceptor set sctx sreq handler).ret = (handler sctx sreq).ret ∧
      (UnaryServerInterceptor set sctx sreq handler).calls = [(sctx, sreq)]) ∧
    (serverBefore (WrapServerStream stream).WrappedContext set = none →
      (StreamServerInterceptor WrapServerStream set srv stream shandler).ret =
        (shandler srv (WrapServerStream stream)).ret ∧
      (StreamServerInterceptor WrapServerStream set srv stream shandler).calls =
        [(srv, WrapServerStream stream)]) ∧
    (∃ args, (UnaryClientInterceptor h cset ctx method req resp cc invoker opts).calls = [args] ∧
      (UnaryClientInterceptor h cset ctx method req resp cc invoker opts).ret =
        (invoker args).ret ∧
      args.method = method ∧ args.req = req ∧ args.resp = resp ∧ args.cc = cc) ∧
    (∃ args, (StreamClientInterceptor h cset ctx desc cc method streamer opts).calls = [args] ∧
      (StreamClientInterceptor h cset ctx desc cc method streamer opts).ret =
        (streamer args).ret ∧
      args.desc = desc ∧ args.cc = cc ∧ args.method = method) := by
  refine ⟨?_, ?_, ⟨_, rfl, rfl, rfl, rfl, rfl, rfl⟩, ⟨_, rfl, rfl, rfl, rfl, rfl⟩⟩
  · intro hu
    simp [UnaryServerInterceptor, hu]
  · intro hs
    simp [StreamServerInterceptor, hs]

/-- The pass-through at calls with accepted credentials whose handlers fail. -/
theorem interceptor_passThrough_witness :
    serverBefore (infoCtx [aliceHeader]) aliceSet = none ∧
    (UnaryServerInterceptor aliceSet (infoCtx [aliceHeader]) 0 failingHandler).ret =
      (none, some handlerErr) ∧
    (UnaryServerInterceptor aliceSet (infoCtx [aliceHeader]) 0 failingHandler).calls.length = 1 :=
  have h := interceptor_passThrough aliceSet (infoCtx [aliceHeader]) 0 failingHandler plainWrap 0
    ⟨0, infoCtx [aliceHeader]⟩ failingStreamHandler emptyHelpers clientSet none [] 0 0 ⟨[]⟩
    failingInvoker [] 0 failingStreamer
  ⟨by decide, (h.1 (by decide)).1, by rw [(h.1 (by decide)).2]; rfl⟩

/-! ## Metadata in the client interceptors -/

theorem orEmpty_ne_null (md : MD) : md.orEmpty ≠ MD.null := by
  cases md <;> simp [MD.orEmpty]

theorem orEmpty_of_ne_null (md : MD) (h : md ≠ MD.null) : md.orEmpty = md := by
  cases md with
  | null => exact absurd rfl h
  | pairs kvs => rfl

theorem getIncomingMD_ne_null (ctx : Context) : GetIncomingMD ctx ≠ MD.null := by
  rcases ctx with _ | ⟨_ | inc, out, _ | p⟩ <;>
    simp [GetIncomingMD, orEmpty_ne_null]

theorem getOutgoingMD_ne_null (ctx : Context) : GetOutgoingMD ctx ≠ MD.null := by
  rcases ctx with _ | ⟨inc, _ | out, _ | p⟩ <;>
    simp [GetOutgoingMD, orEmpty_ne_null]

theorem getIncomingMD_clientContext (h : Helpers) (name rpcType : GoString) (ctx : Context)
    (method : GoString) (cc : ClientConn) :
    GetIncomingMD (clientContext h name rpcType ctx method cc) = GetIncomingMD ctx := by
  have hi := getIncomingMD_ne_null ctx
  have ho := getOutgoingMD_ne_null ctx
  unfold clientContext
  cases hmi : GetIncomingMD ctx with
  | null => exact absurd hmi hi
  | pairs ikvs =>
    cases hmo : GetOutgoingMD ctx with
    | null => exact absurd hmo ho
    | pairs okvs =>
      simp [ToRkContext, GetIncomingMD, WithEntryName, WithIncomingMD, WithOutgoingMD,
        WithRpcInfo, MD.orEmpty]

theorem getOutgoingMD_clientContext (h : Helpers) (name rpcType : GoString) (ctx : Context)
    (method : GoString) (cc : ClientConn) :
    GetOutgoingMD (clientContext h name rpcType ctx method cc) = GetOutgoingMD ctx := by
  have hi := getIncomingMD_ne_null ctx
  have ho := getOutgoingMD_ne_null ctx
  unfold clientContext
  cases hmi : GetIncomingMD ctx with
  | null => exact absurd hmi hi
  | pairs ikvs =>
    cases hmo : GetOutgoingMD ctx with
    | null => exact absurd hmo ho
    | pairs okvs =>
      simp [ToRkContext, GetOutgoingMD, WithEntryName, WithIncomingMD, WithOutgoingMD,
        WithRpcInfo, MD.orEmpty]

/-- C8, as stated, fails: on a context whose incoming metadata holds a value
under "x-request-id" and whose outgoing metadata has nothing under that key,
the context the invoker receives has no value under it in its outgoing
metadata. -/
theorem clientInterceptor_incoming_not_outgoing :
    (GetIncomingMD nestedCtx).values requestIdKey = [str "42"] ∧
    (GetOutgoingMD nestedCtx).values requestIdKey = [] ∧
    (UnaryClientInterceptor emptyHelpers clientSet nestedCtx (str "/svc/Method") 0 0
        ⟨str "localhost:8080"⟩ failingInvoker []).calls.map
      (fun args => (GetOutgoingMD args.ctx).values requestIdKey) = [[]] ∧
    (StreamClientInterceptor emptyHelpers clientSet nestedCtx 0 ⟨str "localhost:8080"⟩
        (str "/svc/Method") failingStreamer []).calls.map
      (fun args => (GetOutgoingMD args.ctx).values requestIdKey) = [[]] := by
  decide

/-- C8, amended: the context handed to the invoker resp. streamer carries the
incoming metadata of the original context as its incoming metadata and the
outgoing metadata of the original context as its outgoing metadata, each
unchanged; the incoming metadata is also passed as the `grpc.Header` call
option. -/
theorem clientInterceptor_metadata_inherited {Req Resp Desc Stream : Type}
    (h : Helpers) (cset : rkgrpcbasic.optionSet) (ctx : Context) (method : GoString)
    (req : Req) (resp : Resp) (cc : ClientConn)
    (invoker : UnaryInvocation Req Resp → Ran (Option Status)) (opts : List CallOption)
    (desc : Desc) (streamer : StreamInvocation Desc → Ran (Option Stream × Option Status)) :
    (∃ args, (UnaryClientInterceptor h cset ctx method req resp cc invoker opts).calls = [args] ∧
      GetIncomingMD args.ctx = GetIncomingMD ctx ∧
      GetOutgoingMD args.ctx = GetOutgoingMD ctx ∧
      args.opts = opts ++ [CallOption.Header (GetIncomingMD ctx)]) ∧
    (∃ args, (StreamClientInterceptor h cset ctx desc cc method streamer opts).calls = [args] ∧
      GetIncomingMD args.ctx = GetIncomingMD ctx ∧
      GetOutgoingMD args.ctx = GetOutgoingMD ctx ∧
      args.opts = opts ++ [CallOption.Header (GetIncomingMD ctx)]) := by
  refine ⟨⟨_, rfl, ?_, ?_, ?_⟩, ⟨_, rfl, ?_, ?_, ?_⟩⟩
  · exact getIncomingMD_clientContext _ _ _ _ _ _
  · exact getOutgoingMD_clientContext _ _ _ _ _ _
  · show opts ++ [CallOption.Header (GetIncomingMD (clientContext _ _ _ _ _ _))] = _
    rw [getIncomingMD_clientContext]
  · exact getIncomingMD_clientContext _ _ _ _ _ _
  · exact getOutgoingMD_clientContext _ _ _ _ _ _
  · show opts ++ [CallOption.Header (GetIncomingMD (clientContext _ _ _ _ _ _))] = _
    rw [getIncomingMD_clientContext]

/-! ## `net.SplitHostPort` and the remote endpoint -/

theorem lastIndexByte_ge (s : GoString) (c : Nat) : -1 ≤ LastIndexByte s c := by
  induction s with
  | nil => simp [LastIndexByte]
  | cons b rest ih =>
    unfold LastIndexByte
    split
    · omega
    · split <;> omega

theorem lastIndexByte_of_not_mem (s : GoString) (c : Nat) (h : c ∉ s) :
    LastIndexByte s c = -1 := by
  induction s with
  | nil => rfl
  | cons b rest ih =>
    have hb : b ≠ c := fun e => h (by simp [e])
    have hr : c ∉ rest := fun e => h (by simp [e])
    unfold LastIndexByte
    rw [ih hr]
    simp [hb]

theorem lastIndexByte_append (u p : GoString) (c : Nat) (hp : c ∉ p) :
    LastIndexByte (u ++ c :: p) c = u.length := by
  induction u with
  | nil =>
    simp only [List.nil_append, List.length_nil]
    unfold LastIndexByte
    rw [lastIndexByte_of_not_mem p c hp]
    simp
  | cons b rest ih =>
    simp only [List.cons_append, List.length_cons]
    unfold LastIndexByte
    rw [ih]
    have : (0 : Int) ≤ (rest.length : Int) := Int.ofNat_nonneg _
    simp only [this, if_true]
    push_cast
    rfl

theorem indexByte_of_not_mem (s : GoString) (c : Nat) (h : c ∉ s) : ¬ 0 ≤ IndexByte s c := by
  have := (indexByte_neg_iff s c).mpr h
  omega

/-- A target `h:p` whose host and port are free of ':', '[' and ']' splits into
`(h, p)`. -/
theorem splitHostPort_hostPort (u p : GoString)
    (hu : 58 ∉ u ∧ 91 ∉ u ∧ 93 ∉ u) (hp : 58 ∉ p ∧ 91 ∉ p ∧ 93 ∉ p) :
    SplitHostPort (u ++ 58 :: p) = (u, p, none) := by
  have hlast := lastIndexByte_append u p 58 hp.1
  have hhead : (u ++ 58 :: p).head? ≠ some 91 := by
    cases u with
    | nil => simp
    | cons b rest =>
      have : b ≠ 91 := fun e => hu.2.1 (by simp [e])
      simp [this]
  have h91 : 91 ∉ u ++ 58 :: p := by
    simp only [List.mem_append, List.mem_cons, not_or]
    exact ⟨hu.2.1, by decide, hp.2.1⟩
  have h93 : 93 ∉ u ++ 58 :: p := by
    simp only [List.mem_append, List.mem_cons, not_or]
    exact ⟨hu.2.2, by decide, hp.2.2⟩
  have hnn : ¬ ((u.length : Int) < 0) := by omega
  simp only [SplitHostPort, hlast, hnn, if_false, hhead, Int.toNat_ofNat, List.take_left,
    indexByte_of_not_mem u 58 hu.1, splitHostPortTail, List.drop_zero,
    indexByte_of_not_mem _ 91 h91, indexByte_of_not_mem _ 93 h93]
  simp

/-- A target without a colon yields an empty host and an empty port, with the
error "missing port in address". -/
theorem splitHostPort_noPort (t : GoString) (ht : 58 ∉ t) :
    SplitHostPort t = ([], [], some { Err := "missing port in address", Addr := t }) := by
  simp [SplitHostPort, lastIndexByte_of_not_mem t 58 ht, addrErr]

theorem getRpcInfo_clientContext (h : Helpers) (name rpcType : GoString) (ctx : Context)
    (method : GoString) (cc : ClientConn) :
    ∃ info, GetRpcInfo (clientContext h name rpcType ctx method cc) = some info ∧
      info.RpcType = rpcType ∧
      info.RemoteIp = (SplitHostPort cc.target).1 ∧
      info.RemotePort = (SplitHostPort cc.target).2.1 := by
  unfold clientContext
  simp only [getRpcInfo_toRkContext_withRpcInfo]
  exact ⟨_, rfl, rfl, rfl, rfl⟩

/-- C9, as stated, fails: for the target "localhost", which has no port, the
RpcInfo handed to the invoker has an empty `RemoteIp`, not the address; and for
the target "[h]:80", whose host part is free of ':', the `RemoteIp` is "h". -/
theorem clientInterceptor_remote_noPort :
    (UnaryClientInterceptor emptyHelpers clientSet none (str "/svc/Method") 0 0
        ⟨str "localhost"⟩ failingInvoker []).calls.map
      (fun args => (GetRpcInfo args.ctx).map (fun info => (info.RemoteIp, info.RemotePort))) =
        [some ([], [])] ∧
    str "localhost" ≠ [] ∧
    (UnaryClientInterceptor emptyHelpers clientSet none (str "/svc/Method") 0 0
        ⟨str "[h]:80"⟩ failingInvoker []).calls.map
      (fun args => (GetRpcInfo args.ctx).map (fun info => (info.RemoteIp, info.RemotePort))) =
        [some (str "h", str "80")] ∧
    str "[h]" ≠ str "h" := by
  decide

/-- C9, amended: the RpcInfo attached to the context handed to the invoker
resp. streamer has the call type of the interceptor; for a target `u:p` with
`u` and `p` free of ':', '[' and ']' its remote endpoint is `(u, p)`; for a
target without a colon both `RemoteIp` and `RemotePort` are empty; in either
case the interceptor invokes the wrapped call once and returns what it
returned. -/
theorem clientInterceptor_remote {Req Resp Desc Stream : Type}
    (h : Helpers) (cset : rkgrpcbasic.optionSet) (ctx : Context) (method : GoString)
    (req : Req) (resp : Resp)
    (invoker : UnaryInvocation Req Resp → Ran (Option Status)) (opts : List CallOption)
    (desc : Desc) (streamer : StreamInvocation Desc → Ran (Option Stream × Option Status))
    (u p t : GoString)
    (hu : 58 ∉ u ∧ 91 ∉ u ∧ 93 ∉ u) (hp : 58 ∉ p ∧ 91 ∉ p ∧ 93 ∉ p) (ht : 58 ∉ t) :
    (∃ args info,
      (UnaryClientInterceptor h cset ctx method req resp ⟨u ++ 58 :: p⟩ invoker opts).calls =
        [args] ∧
      (UnaryClientInterceptor h cset ctx method req resp ⟨u ++ 58 :: p⟩ invoker opts).ret =
        (invoker args).ret ∧
      GetRpcInfo args.ctx = some info ∧ info.RpcType = RpcTypeUnaryClient ∧
      info.RemoteIp = u ∧ info.RemotePort = p) ∧
    (∃ args info,
      (UnaryClientInterceptor h cset ctx method req resp ⟨t⟩ invoker opts).calls = [args] ∧
      (UnaryClientInterceptor h cset ctx method req resp ⟨t⟩ invoker opts).ret =
        (invoker args).ret ∧
      GetRpcInfo args.ctx = some info ∧ info.RpcType = RpcTypeUnaryClient ∧
      info.RemoteIp = [] ∧ info.RemotePort = []) ∧
    (∃ args info,
      (StreamClientInterceptor h cset ctx desc ⟨u ++ 58 :: p⟩ method streamer opts).calls =
        [args] ∧
      (StreamClientInterceptor h cset ctx desc ⟨u ++ 58 :: p⟩ method streamer opts).ret =
        (streamer args).ret ∧
      GetRpcInfo args.ctx = some info ∧ info.RpcType = RpcTypeStreamClient ∧
      info.RemoteIp = u ∧ info.RemotePort = p) ∧
    (∃ args info,
      (StreamClientInterceptor h cset ctx desc ⟨t⟩ method streamer opts).calls = [args] ∧
      (StreamClientInterceptor h cset ctx desc ⟨t⟩ method streamer opts).ret =
        (streamer args).ret ∧
      GetRpcInfo args.ctx = some info ∧ info.RpcType = RpcTypeStreamClient ∧
      info.RemoteIp = [] ∧ info.RemotePort = []) := by
  have h1 := splitHostPort_hostPort u p hu hp
  have h2 := splitHostPort_noPort t ht
  refine ⟨?_, ?_, ?_, ?_⟩
  · obtain ⟨info, hi, ht, hip, hport⟩ :=
      getRpcInfo_clientContext h cset.EntryName RpcTypeUnaryClient ctx method ⟨u ++ 58 :: p⟩
    rw [h1] at hip hport
    exact ⟨_, info, rfl, rfl, hi, ht, hip, hport⟩
  · obtain ⟨info, hi, ht, hip, hport⟩ :=
      getRpcInfo_clientContext h cset.EntryName RpcTypeUnaryClient ctx method ⟨t⟩
    rw [h2] at hip hport
    exact ⟨_, info, rfl, rfl, hi, ht, hip, hport⟩
  · obtain ⟨info, hi, ht, hip, hport⟩ :=
      getRpcInfo_clientContext h cset.EntryName RpcTypeStreamClient ctx method ⟨u ++ 58 :: p⟩
    rw [h1] at hip hport
    exact ⟨_, info, rfl, rfl, hi, ht, hip, hport⟩
  · obtain ⟨info, hi, ht, hip, hport⟩ :=
      getRpcInfo_clientContext h cset.EntryName RpcTypeStreamClient ctx method ⟨t⟩
    rw [h2] at hip hport
    exact ⟨_, info, rfl, rfl, hi, ht, hip, hport⟩

/-- The remote endpoint at the targets "localhost:8080" and "localhost". -/
theorem clientInterceptor_remote_witness :
    (∃ args info,
      (UnaryClientInterceptor emptyHelpers clientSet none (str "/svc/Method") 0 0
        ⟨str "localhost" ++ 58 :: str "8080"⟩ failingInvoker []).calls = [args] ∧
      GetRpcInfo args.ctx = some info ∧
      info.RemoteIp = str "localhost" ∧ info.RemotePort = str "8080") ∧
    (∃ args info,
      (UnaryClientInterceptor emptyHelpers clientSet none (str "/svc/Method") 0 0
        ⟨str "localhost"⟩ failingInvoker []).calls = [args] ∧
      GetRpcInfo args.ctx = some info ∧ info.RemoteIp = [] ∧ info.RemotePort = []) :=
  have h := clientInterceptor_remote emptyHelpers clientSet none (str "/svc/Method") 0 0
    failingInvoker [] 0 failingStreamer (str "localhost") (str "8080") (str "localhost")
    (by decide) (by decide) (by decide)
  ⟨h.1.imp fun _ ha => ha.imp fun _ hb => ⟨hb.1, hb.2.2.1, hb.2.2.2.2⟩,
   h.2.1.imp fun _ ha => ha.imp fun _ hb => ⟨hb.1, hb.2.2.1, hb.2.2.2.2⟩⟩

/-! ## Defaults when no payload is attached -/

/-- C10: on a context without an attached payload, the nil context included,
`GetLogger`, `GetEvent`, `GetIncomingMD`, `GetOutgoingMD` and `GetPayload`
return non-nil values, `GetEntryName` returns the non-empty fallback entry
name, `GetRpcInfo` returns nil, and `GetValueFromIncomingMD` and
`GetValueFromOutgoingMD` return an empty sequence. -/
theorem accessors_default (ctx : Context) (hctx : containsPayload ctx = false) :
    GetLogger ctx ≠ none ∧ GetEvent ctx ≠ none ∧
    GetIncomingMD ctx ≠ MD.null ∧ GetOutgoingMD ctx ≠ MD.null ∧
    GetPayload ctx ≠ none ∧
    GetEntryName ctx = fakeEntryName ∧ fakeEntryName ≠ [] ∧
    GetRpcInfo ctx = none ∧
    (∀ key, GetValueFromIncomingMD ctx key = []) ∧
    (∀ key, GetValueFromOutgoingMD ctx key = []) := by
  refine ⟨?_, ?_, getIncomingMD_ne_null ctx, getOutgoingMD_ne_null ctx, ?_, ?_, by decide,
    ?_, ?_, ?_⟩ <;>
  · rcases ctx with _ | ⟨inc, out, _ | p⟩
    · simp [GetLogger, GetEvent, GetPayload, GetEntryName, GetRpcInfo, GetValueFromIncomingMD,
        GetValueFromOutgoingMD]
    · simp [GetLogger, GetEvent, GetPayload, GetEntryName, GetRpcInfo, GetValueFromIncomingMD,
        GetValueFromOutgoingMD]
    · simp [containsPayload] at hctx

/-- The defaults at the nil context and at the plain context. -/
theorem accessors_default_witness :
    (containsPayload none = false ∧ GetLogger none ≠ none ∧ GetRpcInfo none = none) ∧
    (containsPayload (some Ctx.todo) = false ∧ GetEvent (some Ctx.todo) ≠ none ∧
      GetEntryName (some Ctx.todo) = fakeEntryName) :=
  ⟨⟨rfl, (accessors_default none rfl).1, (accessors_default none rfl).2.2.2.2.2.2.2.1⟩,
   ⟨rfl, (accessors_default (some Ctx.todo) rfl).2.1,
    (accessors_default (some Ctx.todo) rfl).2.2.2.2.2.1⟩⟩

/-! ## Attaching and resolving the payload -/

/-- C11: the context built by `ToRkContext` with the `With*` options, alone or
all together, returns exactly the given non-nil event, logger, entry name,
incoming metadata, outgoing metadata and RpcInfo from the getters;
`SetLogger` followed by `GetLogger` returns the logger set; and an option
given a nil value leaves a non-nil default (for `WithRpcInfo`, a nil
RpcInfo). -/
theorem toRkContext_roundTrip (base : Context) (event : Event) (logger l : Logger)
    (entryName : GoString) (incoming outgoing : List (GoString × List GoString))
    (info : RpcInfo) (opts : List (payload → payload)) :
    (GetEvent (ToRkContext base
        (allOptions event logger entryName incoming outgoing info)) = some event ∧
      GetLogger (ToRkContext base
        (allOptions event logger entryName incoming outgoing info)) = some logger ∧
      GetEntryName (ToRkContext base
        (allOptions event logger entryName incoming outgoing info)) = entryName ∧
      GetIncomingMD (ToRkContext base
        (allOptions event logger entryName incoming outgoing info)) = MD.pairs incoming ∧
      GetOutgoingMD (ToRkContext base
        (allOptions event logger entryName incoming outgoing info)) = MD.pairs outgoing ∧
      GetRpcInfo (ToRkContext base
        (allOptions event logger entryName incoming outgoing info)) = some info) ∧
    (GetEvent (ToRkContext base [WithEvent (some event)]) = some event ∧
      GetLogger (ToRkContext base [WithZapLogger (some logger)]) = some logger ∧
      GetEntryName (ToRkContext base [WithEntryName entryName]) = entryName ∧
      GetIncomingMD (ToRkContext base [WithIncomingMD (MD.pairs incoming)]) =
        MD.pairs incoming ∧
      GetOutgoingMD (ToRkContext base [WithOutgoingMD (MD.pairs outgoing)]) =
        MD.pairs outgoing ∧
      GetRpcInfo (ToRkContext base [WithRpcInfo (some info)]) = some info) ∧
    GetLogger (SetLogger (ToRkContext base opts) (some l)) = some l ∧
    (GetEvent (ToRkContext base [WithEvent none]) ≠ none ∧
      GetLogger (ToRkContext base [WithZapLogger none]) ≠ none ∧
      GetIncomingMD (ToRkContext base [WithIncomingMD MD.null]) ≠ MD.null ∧
      GetOutgoingMD (ToRkContext base [WithOutgoingMD MD.null]) ≠ MD.null ∧
      GetRpcInfo (ToRkContext base [WithRpcInfo none]) = none) := by
  refine ⟨⟨?_, ?_, ?_, ?_, ?_, ?_⟩, ⟨?_, ?_, ?_, ?_, ?_, ?_⟩, ?_, ⟨?_, ?_, ?_, ?_, ?_⟩⟩ <;>
    simp [allOptions, ToRkContext, SetLogger, GetEvent, GetLogger, GetEntryName, GetIncomingMD,
      GetOutgoingMD, GetRpcInfo, WithEvent, WithZapLogger, WithEntryName, WithIncomingMD,
      WithOutgoingMD, WithRpcInfo, MD.orEmpty, defaultPayload]

/-! ## Outgoing metadata -/

theorem lookup_appendValue (kvs : List (GoString × List GoString)) (k v : GoString) :
    ((appendValue kvs k v).lookup k).getD [] = (kvs.lookup k).getD [] ++ [v] := by
  induction kvs with
  | nil => simp [appendValue, List.lookup]
  | cons kv rest ih =>
    obtain ⟨k0, vs⟩ := kv
    unfold appendValue
    by_cases hk : k0 = k
    · subst hk
      simp [List.lookup]
    · have hne : (k == k0) = false := by
        simp only [beq_eq_false_iff_ne, ne_eq]
        exact fun e => hk e.symm
      simp only [hk, if_false, List.lookup, hne]
      exact ih

theorem values_append (md : MD) (k v : GoString) :
    (md.append k v).values k = md.values k ++ [v] := by
  cases md with
  | null => simp [MD.append, MD.values, List.lookup]
  | pairs kvs => simp only [MD.append, MD.values]; exact lookup_appendValue kvs k v

theorem values_orEmpty (md : MD) (k : GoString) : md.orEmpty.values k = md.values k := by
  cases md <;> simp [MD.orEmpty, MD.values, List.lookup]

theorem getOutgoingMD_addToOutgoingMD (ctx : Context) (hctx : containsPayload ctx = true)
    (k v : GoString) :
    (GetOutgoingMD (AddToOutgoingMD ctx k v)).values k = (GetOutgoingMD ctx).values k ++ [v] := by
  rcases ctx with _ | ⟨inc, out, _ | p⟩
  · simp [containsPayload] at hctx
  · simp [containsPayload] at hctx
  · simp only [AddToOutgoingMD, GetOutgoingMD, values_orEmpty, values_append]

theorem containsPayload_addToOutgoingMD (ctx : Context) (k v : GoString) :
    containsPayload (AddToOutgoingMD ctx k v) = containsPayload ctx := by
  rcases ctx with _ | ⟨inc, out, _ | p⟩ <;> rfl

/-- C12: on a context with an attached payload, after `AddToOutgoingMD` of
`v1` and then of `v2` under the key `k`, the values of `GetOutgoingMD` under `k`
are the values that were there followed by `v1`, `v2`; one add on a fresh
context yields exactly `[v]`. -/
theorem addToOutgoingMD_accumulates (ctx : Context) (k v1 v2 v : GoString)
    (hctx : containsPayload ctx = true) :
    (GetOutgoingMD (AddToOutgoingMD (AddToOutgoingMD ctx k v1) k v2)).values k =
      (GetOutgoingMD ctx).values k ++ [v1, v2] ∧
    (GetOutgoingMD (AddToOutgoingMD NewContext k v)).values k = [v] := by
  constructor
  · rw [getOutgoingMD_addToOutgoingMD _ (by rw [containsPayload_addToOutgoingMD]; exact hctx),
      getOutgoingMD_addToOutgoingMD _ hctx]
    simp
  · rw [getOutgoingMD_addToOutgoingMD NewContext rfl]
    rfl

/-- The accumulation at the key "key" on a fresh context. -/
theorem addToOutgoingMD_accumulates_witness :
    containsPayload NewContext = true ∧
    (GetOutgoingMD (AddToOutgoingMD (AddToOutgoingMD NewContext (str "key") (str "a"))
      (str "key") (str "b"))).values (str "key") = [str "a", str "b"] :=
  ⟨rfl, (addToOutgoingMD_accumulates NewContext (str "key") (str "a") (str "b") (str "c")
    rfl).1⟩

/-! ## `serverBefore` reads the first authorization value only -/

/-- C13: two contexts whose "authorization" value lists have the same first
element (or are both empty) get the same result from `serverBefore` under the
same option set, whatever further values and keys their metadata hold; and
`serverBefore` leaves the call context as it is: after a success the handler is
invoked on the context the interceptor received, and after a failure the
context differs from it by the `Err` that the interceptor itself assigns. -/
theorem serverBefore_first_value_only {Req Resp : Type} (ctx1 ctx2 : Context)
    (set : optionSet) (req : Req) (handler : Context → Req → Ran (Option Resp × Option Status))
    (hfirst : (GetValueFromIncomingMD ctx1 authorizationKey).head? =
      (GetValueFromIncomingMD ctx2 authorizationKey).head?) :
    serverBefore ctx1 set = serverBefore ctx2 set ∧
    (serverBefore ctx1 set = none →
      (UnaryServerInterceptor set ctx1 req handler).calls = [(ctx1, req)]) ∧
    (∀ e, serverBefore ctx1 set = some e →
      (UnaryServerInterceptor set ctx1 req handler).ctx = setRpcInfoErr ctx1 (some e)) := by
  refine ⟨?_, ?_, ?_⟩
  · unfold serverBefore
    cases h1 : GetValueFromIncomingMD ctx1 authorizationKey with
    | nil =>
      cases h2 : GetValueFromIncomingMD ctx2 authorizationKey with
      | nil => rfl
      | cons b bs => rw [h1, h2] at hfirst; simp at hfirst
    | cons a as =>
      cases h2 : GetValueFromIncomingMD ctx2 authorizationKey with
      | nil => rw [h1, h2] at hfirst; simp at hfirst
      | cons b bs =>
        rw [h1, h2] at hfirst
        simp only [List.head?_cons, Option.some.injEq] at hfirst
        subst hfirst
        rfl
  · intro hnone
    simp [UnaryServerInterceptor, hnone]
  · intro e he
    simp [UnaryServerInterceptor, he]

/-- The same first value, with and without a second value and a further key. -/
theorem serverBefore_first_value_only_witness :
    (GetValueFromIncomingMD (authCtx [aliceHeader]) authorizationKey).head? =
      (GetValueFromIncomingMD (crowdedCtx aliceHeader) authorizationKey).head? ∧
    serverBefore (authCtx [aliceHeader]) aliceSet =
      serverBefore (crowdedCtx aliceHeader) aliceSet :=
  ⟨by decide,
   (serverBefore_first_value_only (authCtx [aliceHeader]) (crowdedCtx aliceHeader) aliceSet 0
      failingHandler (by decide)).1⟩

/-! ## The TV entry -/

theorem foldl_tvOptions (calls : List TvOptionCall) (entry : TvEntry) :
    ((calls.map TvOptionCall.toOption).foldl (fun e opt => opt e) entry).EntryName =
        (lastNameSupplied calls).getD entry.EntryName ∧
    ((calls.map TvOptionCall.toOption).foldl (fun e opt => opt e) entry).EntryType =
        entry.EntryType ∧
    ((calls.map TvOptionCall.toOption).foldl (fun e opt => opt e) entry).EntryDescription =
        entry.EntryDescription := by
  induction calls generalizing entry with
  | nil => exact ⟨rfl, rfl, rfl⟩
  | cons call rest ih =>
    simp only [List.map_cons, List.foldl_cons]
    obtain ⟨hn, ht, hd⟩ := ih (call.toOption entry)
    refine ⟨?_, ?_, ?_⟩
    · rw [hn]
      simp only [lastNameSupplied]
      cases lastNameSupplied rest with
      | some n => rfl
      | none => cases call <;> rfl
    · rw [ht]; cases call <;> rfl
    · rw [hd]; cases call <;> rfl

theorem tvEntryNameDefault_ne_nil : TvEntryNameDefault ≠ [] := by decide

/-- C14, as stated, fails: an option need not come from the package's
constructors, and with the single option `func(e *TvEntry) { e.EntryType = "X" }`
the entry that `NewTvEntry` yields has the type "X", which `GetType` returns,
not the constant `TvEntryType`. -/
theorem newTvEntry_custom_option_type :
    (NewTvEntry someGlobals [customTypeOption]).EntryType = str "X" ∧
    (NewTvEntry someGlobals [customTypeOption]).GetType = str "X" ∧
    (NewTvEntry someGlobals [customTypeOption]).EntryType ≠ TvEntryType := by
  decide

/-- C14, amended: for every list of options made by the option constructors of
the package, applied in the order given, `NewTvEntry` yields an entry whose name is
the last name supplied when that name is not empty and `TvEntryNameDefault`
otherwise (also with no option at all), so it is never empty; its type and
description are the constants `TvEntryType` and `TvEntryDescription`; and
`GetName`, `GetType`, `GetDescription` return those fields. The name is not
empty for any list of functions of type `TvEntryOption` either. -/
theorem newTvEntry_name (g : GlobalAppCtx) (calls : List TvOptionCall) :
    (NewTvEntry g (calls.map TvOptionCall.toOption)).EntryName = expectedTvName calls ∧
    (NewTvEntry g (calls.map TvOptionCall.toOption)).EntryName ≠ [] ∧
    (NewTvEntry g []).EntryName = TvEntryNameDefault ∧
    TvEntryNameDefault = str "GrpcTvDefault" ∧
    (NewTvEntry g (calls.map TvOptionCall.toOption)).EntryType = TvEntryType ∧
    (NewTvEntry g (calls.map TvOptionCall.toOption)).EntryDescription = TvEntryDescription ∧
    (NewTvEntry g (calls.map TvOptionCall.toOption)).GetName = expectedTvName calls ∧
    (NewTvEntry g (calls.map TvOptionCall.toOption)).GetType = TvEntryType ∧
    (NewTvEntry g (calls.map TvOptionCall.toOption)).GetDescription = TvEntryDescription ∧
    (∀ entry : TvEntry, entry.GetName = entry.EntryName ∧ entry.GetType = entry.EntryType ∧
      entry.GetDescription = entry.EntryDescription) ∧
    (∀ opts : List TvEntryOption, (NewTvEntry g opts).EntryName ≠ []) := by
  obtain ⟨hn, ht, hd⟩ := foldl_tvOptions calls
    { EntryName := TvEntryNameDefault, EntryType := TvEntryType,
      EntryDescription := TvEntryDescription, ZapLoggerEntry := g.zapLoggerEntryDefault,
      EventLoggerEntry := g.eventLoggerEntryDefault }
  have hname : (NewTvEntry g (calls.map TvOptionCall.toOption)).EntryName =
      expectedTvName calls := by
    unfold NewTvEntry expectedTvName
    simp only
    split
    · rename_i hlt
      rw [hn] at hlt
      cases hl : lastNameSupplied calls with
      | none => rfl
      | some n =>
        rw [hl] at hlt
        have : n = [] := by
          cases n with
          | nil => rfl
          | cons a t => simp at hlt
        simp [this]
    · rename_i hge
      rw [hn] at hge ⊢
      cases hl : lastNameSupplied calls with
      | none => rfl
      | some n =>
        rw [hl] at hge
        have : n ≠ [] := by
          rintro rfl
          simp at hge
        simp [this]
  have htype : (NewTvEntry g (calls.map TvOptionCall.toOption)).EntryType = TvEntryType := by
    unfold NewTvEntry
    simp only
    split <;> exact ht
  have hdesc : (NewTvEntry g (calls.map TvOptionCall.toOption)).EntryDescription =
      TvEntryDescription := by
    unfold NewTvEntry
    simp only
    split <;> exact hd
  have hne : expectedTvName calls ≠ [] := by
    unfold expectedTvName
    cases lastNameSupplied calls with
    | none => exact tvEntryNameDefault_ne_nil
    | some n =>
      by_cases h : n = []
      · simp [h, tvEntryNameDefault_ne_nil]
      · simp [h]
  have hany : ∀ opts : List TvEntryOption, (NewTvEntry g opts).EntryName ≠ [] := by
    intro opts
    unfold NewTvEntry
    simp only
    split
    · exact tvEntryNameDefault_ne_nil
    · rename_i hge
      intro hnil
      rw [hnil] at hge
      simp at hge
  refine ⟨hname, by rw [hname]; exact hne, rfl, rfl, htype, hdesc, hname, htype, hdesc,
    fun _ => ⟨rfl, rfl, rfl⟩, hany⟩

end RkGrpc
